import Mathlib

/-!
# Transport core and driver lifecycle of the `webdriver` package

A shallow embedding of `src/common.go` (error translation, request/response
handling) and of the `Start`/`Stop` methods of `src/edge.go`, `src/ie11.go`
and `src/safari.go`.

Conventions of the embedding

* Go `string` and `[]byte` values are Lean `String`s, that is, texts are taken
  to be valid UTF-8; a nil byte slice and an empty one are identified (the
  code only ever takes their length, converts them to `string` or hands them
  to `encoding/json`, which treat both alike).
* Go `int` is `Int`; where the 64-bit range matters (decoding a JSON number
  into an `int` field) the range check is explicit.
* Calls into the Go standard library whose outcome depends on the outside
  world (`http.Client.Do`, `os.OpenFile`, `exec.Cmd.Start`, ...) are answered
  by an explicit environment argument.
* `encoding/json` is embedded as a parser from text to a syntax tree followed
  by the reflection-free store rules for the three struct types the package
  decodes into.
* `debugprint` only writes diagnostics and is left out.
-/

namespace Webdriver

/-! ## Go error values -/

/-- The struct `StackFrame` of `common.go`. -/
structure StackFrame where
  FileName : String := ""
  ClassName : String := ""
  MethodName : String := ""
  LineNumber : Int := 0
deriving DecidableEq, Repr

/-- The struct `CommandError` of `common.go`; the zero value is the default. -/
structure CommandError where
  StatusCode : Int := 0
  ErrorType : String := ""
  Message : String := ""
  Screen : String := ""
  Class : String := ""
  StackTrace : List StackFrame := []
deriving DecidableEq, Repr

/-- The map `statusCodeStrings` of `common.go`, as a lookup function
(`none` is the `found == false` outcome of the Go map index expression). -/
def statusCodeStrings (code : Int) : Option String :=
  match code with
  | 0 => some "The command executed successfully."
  | 6 => some "A session is either terminated or not started."
  | 7 => some "An element could not be located on the page using the given search parameters."
  | 8 => some "A request to switch to a frame could not be satisfied because the frame could not be found."
  | 9 => some "The requested resource could not be found, or a request was received using an HTTP method that is not supported by the mapped resource."
  | 10 => some "An element command failed because the referenced element is no longer attached to the DOM."
  | 11 => some "An element command could not be completed because the element is not visible on the page."
  | 12 => some "An element command could not be completed because the element is in an invalid state (e.g. attempting to click a disabled element)."
  | 13 => some "An unknown server-side error occurred while processing the command."
  | 15 => some "An attempt was made to select an element that cannot be selected."
  | 17 => some "An error occurred while executing user supplied JavaScript."
  | 19 => some "An error occurred while searching for an element by XPath."
  | 21 => some "An operation did not complete before its timeout expired."
  | 23 => some "A request to switch to a different window could not be satisfied because the window could not be found."
  | 24 => some "An illegal attempt was made to set a cookie under a different domain than the current page."
  | 25 => some "A request to set a cookie's value could not be satisfied."
  | 26 => some "A modal dialog was open, blocking this operation."
  | 27 => some "An attempt was made to operate on a modal dialog when one was not open."
  | 28 => some "A script did not complete before its timeout expired."
  | 29 => some "The coordinates provided to an interactions operation are invalid."
  | 30 => some "IME was not available."
  | 31 => some "An IME engine could not be started."
  | 32 => some "Argument was an invalid selector (e.g. XPath/CSS)."
  | 33 => some "A new session could not be created."
  | 34 => some "Target provided for a move action is out of bounds."
  | _ => none

/-- Decimal rendering of an `int`: `strconv.Itoa` and the verb `%d`. -/
def Itoa (n : Int) : String :=
  match n with
  | Int.ofNat m => Nat.repr m
  | Int.negSucc m => "-" ++ Nat.repr (m + 1)

/-- The method `CommandError.Error` (common.go, lines 93-110): the string `m`
is built by three successive appends. -/
def CommandError.Error (e : CommandError) : String :=
  let m := e.ErrorType
  let m := if m ≠ "" then m ++ ": " else m
  let m :=
    if e.StatusCode = -1 then
      m ++ "status code not specified"
    else
      match statusCodeStrings e.StatusCode with
      | some str => m ++ str
      | none => m ++ ("unknown status code (" ++ Itoa e.StatusCode ++ ")")
  let m := if e.Message ≠ "" then m ++ (": " ++ e.Message) else m
  m

/-- A Go `error` value as the package produces or forwards it. -/
inductive GoError where
  /-- The value of `errors.New(text)` evaluated in this package. -/
  | new (text : String)
  /-- An error returned by a library or system call and passed on unchanged;
  `text` is its `Error()` string. -/
  | ext (text : String)
  /-- A `*CommandError` returned by `parseError`. -/
  | command (e : CommandError)
deriving DecidableEq, Repr

/-- The `Error()` method of the interface `error`. -/
def GoError.Error : GoError → String
  | .new text => text
  | .ext text => text
  | .command e => e.Error

/-! ## `encoding/json`: text to syntax tree

The scanner of `encoding/json` accepts exactly the JSON grammar of RFC 8259
with nesting limited to `maxNestingDepth`; the functions below accept the same
texts by recursive descent and build the tree the decoder walks. Recursion is
on a fuel argument. The fuel the callers supply never decides a result: by
`parseString_fuel` and `parseValue_fuel` any larger amount gives the same. -/

/-- Syntax tree of a JSON text. A string carries its unquoted contents, a
number its literal text, and every object member the exact source text of its
value (what a field of type `json.RawMessage` receives). -/
inductive Value where
  | null : Value
  | bool (b : Bool) : Value
  | number (lit : String) : Value
  | string (s : String) : Value
  | array (elems : List Value) : Value
  | object (members : List (String × String × Value)) : Value

/-- The scanner's `isSpace`. -/
def isSpace (c : Char) : Bool :=
  c == ' ' || c == '\t' || c == '\r' || c == '\n'

/-- Drop leading white space (`scanSkipSpace`). -/
def skipSpace : List Char → List Char
  | [] => []
  | c :: cs => if isSpace c then skipSpace cs else c :: cs

/-- Value of one hexadecimal digit, as in the loop of `getu4`. -/
def hexVal (c : Char) : Option Nat :=
  if '0' ≤ c ∧ c ≤ '9' then some (c.toNat - '0'.toNat)
  else if 'a' ≤ c ∧ c ≤ 'f' then some (c.toNat - 'a'.toNat + 10)
  else if 'A' ≤ c ∧ c ≤ 'F' then some (c.toNat - 'A'.toNat + 10)
  else none

/-- The helper `getu4`: the code unit of a leading `\uXXXX`; `none` is Go's `-1`. -/
def getu4 : List Char → Option Nat
  | '\\' :: 'u' :: a :: b :: c :: d :: _ =>
    match hexVal a, hexVal b, hexVal c, hexVal d with
    | some a, some b, some c, some d => some (((a * 16 + b) * 16 + c) * 16 + d)
    | _, _, _, _ => none
  | _ => none

/-- The test `utf16.IsSurrogate`. -/
def isSurrogate (r : Nat) : Bool := 0xd800 ≤ r && r < 0xe000

/-- The function `utf16.DecodeRune` on a high code unit and the result of `getu4` for
what follows; `none` is `unicode.ReplacementChar`. -/
def decodeSurrogates (r1 : Nat) (r2 : Option Nat) : Option Nat :=
  match r2 with
  | some r2 =>
    if 0xd800 ≤ r1 ∧ r1 < 0xdc00 ∧ 0xdc00 ≤ r2 ∧ r2 < 0xe000 then
      some ((r1 - 0xd800) * 1024 + (r2 - 0xdc00) + 0x10000)
    else none
  | none => none

/-- The character a one-letter escape stands for (`stateInStringEsc`/`unquoteBytes`). -/
def unescape (c : Char) : Option Char :=
  if c = '"' then some '"'
  else if c = '\\' then some '\\'
  else if c = '/' then some '/'
  else if c = 'b' then some (Char.ofNat 8)
  else if c = 'f' then some (Char.ofNat 12)
  else if c = 'n' then some '\n'
  else if c = 'r' then some '\r'
  else if c = 't' then some '\t'
  else none

/-- Scan a string literal whose opening quote has been consumed and unquote it
(`stateInString` and `unquoteBytes`): the contents and the text after the
closing quote. -/
def parseString : Nat → List Char → Option (List Char × List Char)
  | 0, _ => none
  | _, [] => none
  | fuel + 1, c :: cs =>
    if c = '"' then some ([], cs)
    else if c = '\\' then
      match cs with
      | [] => none
      | e :: cs1 =>
        if e = 'u' then
          match getu4 (c :: cs) with
          | none => none
          | some rr =>
            let rest := cs1.drop 4
            if isSurrogate rr then
              match decodeSurrogates rr (getu4 rest) with
              | some dec =>
                (parseString fuel (rest.drop 6)).map fun p => (Char.ofNat dec :: p.1, p.2)
              | none =>
                (parseString fuel rest).map fun p => (Char.ofNat 0xfffd :: p.1, p.2)
            else
              (parseString fuel rest).map fun p => (Char.ofNat rr :: p.1, p.2)
        else
          match unescape e with
          | some ch => (parseString fuel cs1).map fun p => (ch :: p.1, p.2)
          | none => none
    else if c.toNat < 0x20 then none
    else (parseString fuel cs).map fun p => (c :: p.1, p.2)

/-- Longest prefix of decimal digits and the remaining text. -/
def takeDigits : List Char → List Char × List Char
  | [] => ([], [])
  | c :: cs =>
    if c.isDigit then ((c :: (takeDigits cs).1), (takeDigits cs).2) else ([], c :: cs)

/-- Integer part of a number (`stateNeg`, `state0`, `state1`). -/
def scanInt : List Char → Option (List Char × List Char)
  | [] => none
  | c :: cs =>
    if c = '0' then some (['0'], cs)
    else if c.isDigit then some (c :: (takeDigits cs).1, (takeDigits cs).2)
    else none

/-- Optional fraction (`stateDot`, `stateDot0`). -/
def scanFrac : List Char → Option (List Char × List Char)
  | '.' :: cs =>
    match takeDigits cs with
    | ([], _) => none
    | (ds, rest) => some ('.' :: ds, rest)
  | cs => some ([], cs)

/-- Digits of an exponent (`stateESign`, `stateE0`). -/
def scanExpDigits (pre : List Char) (cs : List Char) : Option (List Char × List Char) :=
  match takeDigits cs with
  | ([], _) => none
  | (ds, rest) => some (pre ++ ds, rest)

/-- Optional exponent (`stateE`). -/
def scanExp : List Char → Option (List Char × List Char)
  | [] => some ([], [])
  | c :: cs =>
    if c = 'e' ∨ c = 'E' then
      match cs with
      | s :: cs1 => if s = '+' ∨ s = '-' then scanExpDigits [c, s] cs1 else scanExpDigits [c] cs
      | [] => none
    else some ([], c :: cs)

/-- Scan a number literal: its text and what follows it. -/
def parseNumber (cs : List Char) : Option (List Char × List Char) :=
  let signed := match cs with
    | '-' :: rest => (['-'], rest)
    | _ => ([], cs)
  match scanInt signed.2 with
  | none => none
  | some (ip, r1) =>
    match scanFrac r1 with
    | none => none
    | some (fp, r2) =>
      match scanExp r2 with
      | none => none
      | some (ep, r3) => some (signed.1 ++ ip ++ fp ++ ep, r3)

/-- The constant `maxNestingDepth` of the scanner. -/
def maxNestingDepth : Nat := 10000

mutual
/-- One JSON value at the head of the text (leading space allowed) and the
text that follows it; `depth` counts the containers currently open. -/
def parseValue : Nat → Nat → List Char → Option (Value × List Char)
  | 0, _, _ => none
  | fuel + 1, depth, cs =>
    match skipSpace cs with
    | [] => none
    | c :: rest =>
      if c = '\x7b' then
        if depth + 1 ≤ maxNestingDepth then
          match skipSpace rest with
          | '\x7d' :: r => some (Value.object [], r)
          | _ => parseMembers fuel (depth + 1) [] rest
        else none
      else if c = '[' then
        if depth + 1 ≤ maxNestingDepth then
          match skipSpace rest with
          | ']' :: r => some (Value.array [], r)
          | _ => parseElems fuel (depth + 1) [] rest
        else none
      else if c = '"' then
        (parseString (rest.length + 1) rest).map fun p => (Value.string (String.mk p.1), p.2)
      else if c = '-' ∨ c.isDigit then
        (parseNumber (c :: rest)).map fun p => (Value.number (String.mk p.1), p.2)
      else
        match c :: rest with
        | 't' :: 'r' :: 'u' :: 'e' :: r => some (Value.bool true, r)
        | 'f' :: 'a' :: 'l' :: 's' :: 'e' :: r => some (Value.bool false, r)
        | 'n' :: 'u' :: 'l' :: 'l' :: r => some (Value.null, r)
        | _ => none
/-- The elements of an array after the first has been seen to exist, up to and
including the closing bracket. -/
def parseElems : Nat → Nat → List Value → List Char → Option (Value × List Char)
  | 0, _, _, _ => none
  | fuel + 1, depth, acc, cs =>
    match parseValue fuel depth cs with
    | none => none
    | some (v, rest) =>
      match skipSpace rest with
      | ',' :: r => parseElems fuel depth (acc ++ [v]) r
      | ']' :: r => some (Value.array (acc ++ [v]), r)
      | _ => none
/-- The members of a non-empty object, up to and including the closing brace. -/
def parseMembers : Nat → Nat → List (String × String × Value) → List Char →
    Option (Value × List Char)
  | 0, _, _, _ => none
  | fuel + 1, depth, acc, cs =>
    match skipSpace cs with
    | '"' :: afterQuote =>
      match parseString (afterQuote.length + 1) afterQuote with
      | none => none
      | some (key, afterKey) =>
        match skipSpace afterKey with
        | ':' :: afterColon =>
          let start := skipSpace afterColon
          match parseValue fuel depth start with
          | none => none
          | some (v, rest) =>
            let raw := start.take (start.length - rest.length)
            match skipSpace rest with
            | ',' :: r => parseMembers fuel depth (acc ++ [(String.mk key, String.mk raw, v)]) r
            | '\x7d' :: r => some (Value.object (acc ++ [(String.mk key, String.mk raw, v)]), r)
            | _ => none
        | _ => none
    | _ => none
end

/-- What `json.Unmarshal` sees of its input: `checkValid` requires the whole
text to be one value surrounded by optional space. -/
def parseJSON (data : String) : Option Value :=
  match parseValue (2 * data.length + 1) 0 data.data with
  | some (v, rest) => if skipSpace rest = [] then some v else none
  | none => none

/-- What `(*json.Decoder).Decode` sees of a stream: the first value; whatever
follows it stays in the decoder's buffer. -/
def parseFirst (data : String) : Option Value :=
  (parseValue (2 * data.length + 1) 0 data.data).map Prod.fst

/-! ## `encoding/json`: storing a tree into the package's structs

`Unmarshal` records the first mismatch between a JSON value and its target
(`UnmarshalTypeError`) and keeps decoding; the callers in this package only
test the returned error against nil, so the store rules return the updated
target together with a flag that is `true` when an error was recorded. -/

/-- Fold of one character for member-name matching (`foldRune`). Only the fold
classes that contain an ASCII letter are spelled out: besides the two cases of
a letter, U+017F folds with `s` and U+212A with `k`. Every other character is
in a class without ASCII members and is left as it is, which gives the same
matches against the (all ASCII) field names of this package. -/
def foldRune (c : Char) : Char :=
  if 'a' ≤ c ∧ c ≤ 'z' then Char.ofNat (c.toNat - 32)
  else if c = Char.ofNat 0x17f then 'S'
  else if c = Char.ofNat 0x212a then 'K'
  else c

/-- The helper `foldName`: two names match case-insensitively when their folds agree. -/
def foldName (s : String) : String := String.mk (s.data.map foldRune)

/-- The struct field a member name selects: an exact match first
(`byExactName`), otherwise a match up to case (`byFoldedName`). -/
def findField (names : List String) (key : String) : Option String :=
  match names.find? (fun n => n = key) with
  | some n => some n
  | none => names.find? (fun n => foldName n = foldName key)

/-- Value of a sequence of decimal digits, `none` if it is empty or holds
another character. -/
def digitsToNat : List Char → Option Nat
  | [] => none
  | cs => cs.foldl (fun acc c =>
      match acc with
      | some n => if c.isDigit then some (n * 10 + (c.toNat - '0'.toNat)) else none
      | none => none) (some 0)

/-- The call `strconv.ParseInt(lit, 10, 64)` on a number literal the scanner
accepted: an optional sign and digits only, within the 64-bit range. -/
def parseInt64 (lit : String) : Option Int :=
  let n : Option Int := match lit.data with
    | '-' :: ds => (digitsToNat ds).map fun m => - (m : Int)
    | '+' :: ds => (digitsToNat ds).map fun m => (m : Int)
    | ds => (digitsToNat ds).map fun m => (m : Int)
  match n with
  | some v => if -9223372036854775808 ≤ v ∧ v ≤ 9223372036854775807 then some v else none
  | none => none

/-- Store into a field of kind `string`: a JSON string is stored, `null`
leaves the field alone, anything else is a type error. -/
def storeString (v : Value) (old : String) : String × Bool :=
  match v with
  | .string s => (s, false)
  | .null => (old, false)
  | _ => (old, true)

/-- Store into a field of kind `int`: a number that `ParseInt` accepts is
stored, `null` leaves the field alone, anything else is a type error. -/
def storeInt (v : Value) (old : Int) : Int × Bool :=
  match v with
  | .number lit =>
    match parseInt64 lit with
    | some n => (n, false)
    | none => (old, true)
  | .null => (old, false)
  | _ => (old, true)

/-- One member of an object stored into a `StackFrame`. -/
def StackFrame.storeMember (acc : StackFrame × Bool) (m : String × String × Value) :
    StackFrame × Bool :=
  match findField ["FileName", "ClassName", "MethodName", "LineNumber"] m.1 with
  | some "FileName" =>
    let r := storeString m.2.2 acc.1.FileName
    ({ acc.1 with FileName := r.1 }, acc.2 || r.2)
  | some "ClassName" =>
    let r := storeString m.2.2 acc.1.ClassName
    ({ acc.1 with ClassName := r.1 }, acc.2 || r.2)
  | some "MethodName" =>
    let r := storeString m.2.2 acc.1.MethodName
    ({ acc.1 with MethodName := r.1 }, acc.2 || r.2)
  | some "LineNumber" =>
    let r := storeInt m.2.2 acc.1.LineNumber
    ({ acc.1 with LineNumber := r.1 }, acc.2 || r.2)
  | _ => acc

/-- Store into a `StackFrame`: the members of an object are stored in order
into the existing value, `null` leaves it alone, anything else is a type error. -/
def storeStackFrame (v : Value) (old : StackFrame) : StackFrame × Bool :=
  match v with
  | .object members => members.foldl StackFrame.storeMember (old, false)
  | .null => (old, false)
  | _ => (old, true)

/-- The elements of an array stored into a slice of `StackFrame`: element `i`
is decoded into the slice's element `i` where the slice already has one and
into a zero value otherwise. (Elements beyond the length but within the
capacity of a slice that was truncated by an earlier store are taken to be
zero.) -/
def storeStackFrames : List Value → List StackFrame → List StackFrame × Bool
  | [], _ => ([], false)
  | v :: vs, old =>
    let r := storeStackFrame v (old.headD {})
    let rs := storeStackFrames vs old.tail
    (r.1 :: rs.1, r.2 || rs.2)

/-- Store into a field of type `[]StackFrame`: an array is stored element by
element, `null` sets the slice to nil, anything else is a type error. -/
def storeStackTrace (v : Value) (old : List StackFrame) : List StackFrame × Bool :=
  match v with
  | .array elems => storeStackFrames elems old
  | .null => ([], false)
  | _ => (old, true)

/-- One member of an object stored into a `CommandError`. The member names are
the field names, except for `ErrorType` and `Message`, whose tags rename them
to `error` and `message`. -/
def CommandError.storeMember (acc : CommandError × Bool) (m : String × String × Value) :
    CommandError × Bool :=
  match findField ["StatusCode", "error", "message", "Screen", "Class", "StackTrace"] m.1 with
  | some "StatusCode" =>
    let r := storeInt m.2.2 acc.1.StatusCode
    ({ acc.1 with StatusCode := r.1 }, acc.2 || r.2)
  | some "error" =>
    let r := storeString m.2.2 acc.1.ErrorType
    ({ acc.1 with ErrorType := r.1 }, acc.2 || r.2)
  | some "message" =>
    let r := storeString m.2.2 acc.1.Message
    ({ acc.1 with Message := r.1 }, acc.2 || r.2)
  | some "Screen" =>
    let r := storeString m.2.2 acc.1.Screen
    ({ acc.1 with Screen := r.1 }, acc.2 || r.2)
  | some "Class" =>
    let r := storeString m.2.2 acc.1.Class
    ({ acc.1 with Class := r.1 }, acc.2 || r.2)
  | some "StackTrace" =>
    let r := storeStackTrace m.2.2 acc.1.StackTrace
    ({ acc.1 with StackTrace := r.1 }, acc.2 || r.2)
  | _ => acc

/-- Store into a `CommandError`. -/
def storeCommandError (v : Value) (old : CommandError) : CommandError × Bool :=
  match v with
  | .object members => members.foldl CommandError.storeMember (old, false)
  | .null => (old, false)
  | _ => (old, true)

/-- The call `json.Unmarshal(data, e)` for `e` of type `*CommandError`: the
value `e` points to afterwards and whether the returned error is non-nil. A
text that `checkValid` rejects leaves the target untouched. -/
def unmarshalCommandError (data : String) (e : CommandError) : CommandError × Bool :=
  match parseJSON data with
  | none => (e, true)
  | some v => storeCommandError v e

/-- The struct `jsonResponse` of `common.go`. -/
structure jsonResponse where
  RawSessionID : String := ""
  Status : Int := 0
  RawValue : String := ""
deriving DecidableEq, Repr

/-- One member of an object stored into a `jsonResponse`. The field of type
`json.RawMessage` takes the source text of any value, `null` included. -/
def jsonResponse.storeMember (acc : jsonResponse × Bool) (m : String × String × Value) :
    jsonResponse × Bool :=
  match findField ["sessionId", "status", "value"] m.1 with
  | some "sessionId" =>
    let r := storeString m.2.2 acc.1.RawSessionID
    ({ acc.1 with RawSessionID := r.1 }, acc.2 || r.2)
  | some "status" =>
    let r := storeInt m.2.2 acc.1.Status
    ({ acc.1 with Status := r.1 }, acc.2 || r.2)
  | some "value" => ({ acc.1 with RawValue := m.2.1 }, acc.2)
  | _ => acc

/-- Store into a `jsonResponse`. -/
def storeJsonResponse (v : Value) (old : jsonResponse) : jsonResponse × Bool :=
  match v with
  | .object members => members.foldl jsonResponse.storeMember (old, false)
  | .null => (old, false)
  | _ => (old, true)

/-- The call `json.Unmarshal(data, jr)` for `jr` of type `*jsonResponse`. -/
def unmarshalJsonResponse (data : String) (jr : jsonResponse) : jsonResponse × Bool :=
  match parseJSON data with
  | none => (jr, true)
  | some v => storeJsonResponse v jr

/-- The call `decoder.Decode(jr)` of a fresh `json.Decoder` over a buffer holding
`data`, for `jr` of type `*jsonResponse`. -/
def decodeJsonResponse (data : String) (jr : jsonResponse) : jsonResponse × Bool :=
  match parseFirst data with
  | none => (jr, true)
  | some v => storeJsonResponse v jr

/-! ## Error translation (`common.go`, lines 118-147) -/

/-- The function `parseError`. Its result is always the `*CommandError` it
builds, given here as that struct; the conversion to the interface `error` is
made where the result is used. -/
def parseError (c : Int) (jr : jsonResponse) : CommandError :=
  let responseCodeError : String :=
    match c with
    | 200 => ""
    | 400 => "400: Missing Command Parameters"
    | 404 => "404: Unknown command/Resource Not Found"
    | 405 => "405: Invalid Command Method"
    | 500 => "500: Failed Command"
    | 501 => "501: Unimplemented Command"
    | _ => "Unknown error"
  let status := jr.Status
  let status := if status = 0 then -1 else status
  let commandError : CommandError := { StatusCode := status, ErrorType := responseCodeError }
  let r := unmarshalCommandError jr.RawValue commandError
  let commandError := if r.2 then { r.1 with Message := jr.RawValue } else r.1
  commandError

/-! ## Transport core (`common.go`, lines 149-270) -/

/-- A Go value passed as `interface{}`, represented by what `json.Marshal`
returns for it (the text, or the `Error()` string of the error). -/
structure Any where
  Marshal : Except String String

/-- An `*http.Request` as `newRequest` builds it. -/
structure Request where
  Method : String
  URL : String
  Body : String
  Header : List (String × String)
deriving DecidableEq, Repr

/-- What the code reads of an `*http.Response`: the status code, the outcome
of `response.Location()` (the resolved URL of the `Location` header, or the
error when the header is missing or malformed) and the outcome of copying the
body into a buffer (`io.Copy`). -/
structure Response where
  StatusCode : Int
  Location : Except String String
  Body : Except String String

/-- The outside world as one call of `do` meets it. -/
structure World where
  /-- The call `fmt.Sprintf(urlFormat, urlParams...)`. -/
  Sprintf : String → List Any → String
  /-- The error of `http.NewRequest(method, url, body)`, decided by the
  method and the URL; `none` when the request is built. -/
  NewRequest : String → String → Option String
  /-- The call `client.Do(request)`, timeouts included among its errors. -/
  Do : Request → Except String Response

/-- The three values a transport call returns. -/
structure Result where
  sessionID : String
  data : String
  err : Option GoError
deriving DecidableEq, Repr

/-- The function `isRedirect`. -/
def isRedirect (response : Response) : Bool :=
  let r := response.StatusCode
  r == 302 || r == 303

/-- The function `newRequest`. -/
def newRequest (w : World) (method path : String) (data : String) : Except String Request :=
  match w.NewRequest method path with
  | some err => .error err
  | none =>
    let header : List (String × String) := []
    let header :=
      if method = "POST" then header ++ [("Content-Type", "application/json;charset=utf-8")]
      else header
    let header := header ++ [("Accept", "application/json")]
    let header := header ++ [("Accept-Charset", "utf-8")]
    .ok { Method := method, URL := path, Body := data, Header := header }

/-- The struct `WebDriverCore`. -/
structure WebDriverCore where
  url : String := ""
deriving DecidableEq, Repr

/-- Lines 243-269 of `doInternal`: decode the buffered body, decide between
success and `parseError`, and recover a session id nested in the value. (The
test `len(s) == 0` of a Go string is the test for the empty string.) -/
def decodeResponse (StatusCode : Int) (buf : String) : Result :=
  let jr : jsonResponse := {}
  let d := decodeJsonResponse buf jr
  if d.2 then
    { sessionID := "", data := "", err := some (GoError.new "error: response must be a JSON object") }
  else
    let jr := d.1
    if StatusCode ≥ 400 ∨ jr.Status ≠ 0 then
      { sessionID := "", data := "", err := some (GoError.command (parseError StatusCode jr)) }
    else
      let jr :=
        if jr.RawSessionID.length = 0 then
          let jr2 : jsonResponse := {}
          let jr2 := (unmarshalJsonResponse jr.RawValue jr2).1
          if jr2.RawSessionID.length > 0 then { jr with RawSessionID := jr2.RawSessionID } else jr
        else jr
      { sessionID := jr.RawSessionID, data := jr.RawValue, err := none }

/-- Lines 188-198 of `doInternal`: the request body. Only a POST has one, the
JSON encoding of `params`, with an empty map standing in for nil. -/
def marshalParams (params : Option Any) (method : String) : Except String String :=
  if method = "POST" then
    match params with
    | none => .ok "\x7b\x7d"
    | some p => p.Marshal
  else .ok ""

set_option linter.unusedVariables false in
/-- The method `WebDriverCore.doInternal`: the returned triple and the requests
handed to `client.Do`, in order. The recursive call is made for a POST only
and is a GET, which is the measure of termination. -/
def WebDriverCore.doInternal (env : World) (w : WebDriverCore) (params : Option Any)
    (method path : String) : Result × List Request :=
  match marshalParams params method with
  | .error err => ({ sessionID := "", data := "", err := some (GoError.ext err) }, [])
  | .ok jsonParams =>
    match newRequest env method path jsonParams with
    | .error err => ({ sessionID := "", data := "", err := some (GoError.ext err) }, [])
    | .ok request =>
      match env.Do request with
      | .error err => ({ sessionID := "", data := "", err := some (GoError.ext err) }, [request])
      | .ok response =>
        if h : method = "POST" ∧ isRedirect response = true then
          match response.Location with
          | .error err =>
            ({ sessionID := "", data := "", err := some (GoError.ext err) }, [request])
          | .ok url =>
            let r := WebDriverCore.doInternal env w none "GET" url
            (r.1, request :: r.2)
        else
          match response.Body with
          | .error err =>
            ({ sessionID := "", data := "", err := some (GoError.ext err) }, [request])
          | .ok buf => (decodeResponse response.StatusCode buf, [request])
termination_by (if method = "POST" then 1 else 0)
decreasing_by simp [h.1]

/-- The method `WebDriverCore.do`. -/
def WebDriverCore.«do» (env : World) (w : WebDriverCore) (params : Option Any)
    (method urlFormat : String) (urlParams : List Any) : Result × List Request :=
  if method ≠ "GET" ∧ method ≠ "POST" ∧ method ≠ "DELETE" then
    ({ sessionID := "", data := "", err := some (GoError.new ("invalid method: " ++ method)) }, [])
  else
    let url := w.url ++ env.Sprintf urlFormat urlParams
    w.doInternal env params method url

/-! ## The client of `doInternal` (`net/http`, `client.go` and `response.go`)

`doInternal` builds its client as `&http.Client{Timeout, Transport}` (lines
202-208), without `CheckRedirect`, so `client.Do` follows redirects by itself
under the default policy of the standard library (Go 1.18 and later): a 301,
302 or 303 is followed with a GET (a GET or HEAD keeps its method), a 307 or
308 with the method and body of the first request, a redirect without
`Location` header is returned as it is, and the eleventh request of one call
is refused with `stopped after 10 redirects`. -/

/-- A response as the transport receives it: the status code, the value of the
`Location` header (empty when the header is absent) and the outcome of reading
the body. -/
structure WireResponse where
  StatusCode : Int
  Location : String
  Body : Except String String

/-- The network as one call of `client.Do` meets it. -/
structure Network where
  /-- One request sent and answered (`Transport.RoundTrip`), timeouts included
  among its errors. -/
  RoundTrip : Request → Except String WireResponse
  /-- The call `u.Parse(loc)`: a `Location` value resolved against the URL `u` of
  the request it answers, or the error when it does not parse. -/
  Parse : String → String → Except String String
  /-- The header the client gives the request of the next hop, from the first
  request of the call, the request just answered and the next URL (the copied
  headers and `Referer`). -/
  HopHeader : Request → Request → String → List (String × String)
  /-- The `Error()` string of the `*url.Error` the client returns, from the first
  request of the call, the URL it names and the error it wraps. -/
  UrlError : Request → String → String → String
  /-- The verb `%q` of `fmt` on a string. -/
  Quote : String → String

/-- The function `redirectBehavior` of `net/http` for a request made by
`newRequest` (whose body can be sent again): the method of the next hop and
whether the body goes with it, `none` when the response is not followed. -/
def redirectBehavior (reqMethod : String) (status : Int) : Option (String × Bool) :=
  if status = 301 ∨ status = 302 ∨ status = 303 then
    some (if reqMethod ≠ "GET" ∧ reqMethod ≠ "HEAD" then "GET" else reqMethod, false)
  else if status = 307 ∨ status = 308 then
    some (reqMethod, true)
  else none

/-- The loop of `(*Client).do`. The argument `allowed` counts the requests the
default `CheckRedirect` still lets through (it refuses a hop once ten requests
have been made), `loc` is the `Location` value that led to `req`, and `reqs`
are the requests sent so far. The result is the outcome of the call, a
response together with the request it answers, and the requests sent. -/
def Client.hops (net : Network) (ireq : Request) :
    Nat → String → Request → List Request →
      Except String (WireResponse × Request) × List Request
  | 0, loc, _, reqs => (.error (net.UrlError ireq loc "stopped after 10 redirects"), reqs)
  | allowed + 1, _, req, reqs =>
    let reqs := reqs ++ [req]
    match net.RoundTrip req with
    | .error err => (.error (net.UrlError ireq req.URL err), reqs)
    | .ok resp =>
      match redirectBehavior req.Method resp.StatusCode with
      | none => (.ok (resp, req), reqs)
      | some (redirectMethod, includeBody) =>
        if resp.Location = "" then (.ok (resp, req), reqs)
        else
          match net.Parse req.URL resp.Location with
          | .error err =>
            (.error (net.UrlError ireq req.URL
              ("failed to parse Location header " ++ net.Quote resp.Location ++ ": " ++ err)), reqs)
          | .ok u =>
            let next : Request :=
              { Method := redirectMethod, URL := u,
                Body := if includeBody then ireq.Body else "",
                Header := net.HopHeader ireq req u }
            Client.hops net ireq allowed resp.Location next reqs

/-- What the code reads of the response `client.Do` returns; `Location()`
resolves the header against the URL of the request the response answers and
fails when the header is absent. -/
def Client.response (net : Network) (answer : WireResponse × Request) : Response :=
  { StatusCode := answer.1.StatusCode,
    Location :=
      if answer.1.Location = "" then .error "http: no Location header in response"
      else net.Parse answer.2.URL answer.1.Location,
    Body := answer.1.Body }

/-- The call `client.Do(request)` of the client `doInternal` builds: what it
returns and the requests it sends, in order. -/
def Client.Do (net : Network) (request : Request) : Except String Response × List Request :=
  let r := Client.hops net request 10 "" request []
  (r.1.map (Client.response net), r.2)

/-- The world in which `client.Do` is the client above on the network `net`;
`Sprintf` and `NewRequest` are those of `env`. -/
def World.withClient (env : World) (net : Network) : World :=
  { env with Do := fun request => (Client.Do net request).1 }

/-- The requests sent over the network by a sequence of calls of `client.Do`. -/
def wireRequests (net : Network) : List Request → List Request
  | [] => []
  | call :: calls => (Client.Do net call).2 ++ wireRequests net calls

/-! ## Driver lifecycle (`edge.go`, `ie11.go`, `safari.go`) -/

/-- An `*exec.Cmd`: the command line and the process, nil until `Start`
has spawned it. -/
structure Cmd where
  Path : String
  Args : List String
  Process : Option Nat := none
deriving DecidableEq, Repr

/-- The fields of `EdgeDriver`, `IE11Driver` and `SafariDriver` (the three
structs declare the same fields); `url` is the field of the embedded
`WebDriverCore` and `StartTimeout` a `time.Duration` in nanoseconds. -/
structure Driver where
  url : String := ""
  Port : Int := 0
  BaseUrl : String := ""
  Threads : Int := 0
  LogPath : String := ""
  LogFile : String := ""
  StartTimeout : Int := 0
  path : String := ""
  cmd : Option Cmd := none
  logFile : Option Nat := none
deriving DecidableEq, Repr

/-- The constructor `NewEdgeDriver`. -/
def NewEdgeDriver (path : String) : Driver :=
  { path := path, Port := 17556, BaseUrl := "", Threads := 4, LogPath := "",
    StartTimeout := 20 * 1000000000 }

/-- The constructor `NewIE11Driver`. -/
def NewIE11Driver (path : String) : Driver :=
  { path := path, Port := 5555, BaseUrl := "", Threads := 4, LogPath := "",
    StartTimeout := 20 * 1000000000 }

/-- The constructor `NewSafariDriver`. -/
def NewSafariDriver (path : String) : Driver :=
  { path := path, Port := 9516, BaseUrl := "", Threads := 4, LogPath := "",
    StartTimeout := 20 * 1000000000 }

/-- The answers of the operating system to one call of `Start`, in the order
the calls are made; an error is given by its `Error()` string. -/
structure StartEnv where
  /-- The error of `os.OpenFile(d.LogPath, ...)`. -/
  OpenLogPath : Option String
  /-- The error of `d.cmd.StdoutPipe()`. -/
  StdoutPipe : Option String
  /-- The error of `d.cmd.StderrPipe()`. -/
  StderrPipe : Option String
  /-- The call `d.cmd.Start()`: the spawned process or the error. -/
  CmdStart : Except String Nat
  /-- The call `os.OpenFile(d.LogFile, ...)`: the file or the error. -/
  OpenLogFile : Except String Nat
  /-- The error of `probePort(d.Port, d.StartTimeout)`. -/
  ProbePort : Option String

/-- The body shared by the three `Start` methods, which differ in the driver
name of their messages and in the switches that follow `--port`. -/
def startDriver (name : String) (extraSwitches : List String) (os : StartEnv) (d : Driver) :
    Driver × Option GoError :=
  let csferr := name ++ " start failed: "
  if d.cmd ≠ none then
    (d, some (GoError.new (csferr ++ (name ++ " already running"))))
  else
    let logPathErr : Option String := if d.LogPath ≠ "" then os.OpenLogPath else none
    match logPathErr with
    | some err => (d, some (GoError.new (csferr ++ "unable to write in log path: " ++ err)))
    | none =>
      let d := { d with url := "http://localhost:" ++ Itoa d.Port ++ d.BaseUrl }
      let switches : List String := []
      let switches := switches ++ ["--port=" ++ Itoa d.Port]
      let switches := switches ++ extraSwitches
      let cmd : Cmd := { Path := d.path, Args := d.path :: switches }
      let d := { d with cmd := some cmd }
      match os.StdoutPipe with
      | some err => (d, some (GoError.new (csferr ++ err)))
      | none =>
        match os.StderrPipe with
        | some err => (d, some (GoError.new (csferr ++ err)))
        | none =>
          match os.CmdStart with
          | .error err => (d, some (GoError.new (csferr ++ err)))
          | .ok pid =>
            let d := { d with cmd := some { cmd with Process := some pid } }
            let opened : Driver × Option String :=
              if d.LogFile ≠ "" then
                match os.OpenLogFile with
                | .error err => ({ d with logFile := none }, some err)
                | .ok file => ({ d with logFile := some file }, none)
              else (d, none)
            match opened.2 with
            | some err => (opened.1, some (GoError.ext err))
            | none =>
              match os.ProbePort with
              | some err => (opened.1, some (GoError.ext err))
              | none => (opened.1, none)

/-- How a call of `Stop` ends: it returns, or it panics on the nil
`d.cmd.Process` of a command that was never spawned. Either way the deferred
function has run and `d` is the driver afterwards. -/
inductive StopResult where
  | returns (d : Driver) (err : Option GoError)
  | panics (d : Driver)
deriving DecidableEq, Repr

/-- The body shared by the three `Stop` methods. The argument `signal` is the
error of `Process.Signal(os.Interrupt)`, which the code drops; closing the log
file changes no field. -/
def stopDriver (name : String) (_signal : Option String) (d : Driver) : StopResult :=
  match d.cmd with
  | none => .returns d (some (GoError.new ("stop failed: " ++ name ++ " not running")))
  | some cmd =>
    match cmd.Process with
    | none => .panics { d with cmd := none }
    | some _ => .returns { d with cmd := none } none

/-- The method `(*EdgeDriver).Start`. -/
def EdgeDriver.Start (os : StartEnv) (d : Driver) : Driver × Option GoError :=
  startDriver "Edgedriver" ["--jwp=true"] os d

/-- The method `(*EdgeDriver).Stop`. -/
def EdgeDriver.Stop (signal : Option String) (d : Driver) : StopResult :=
  stopDriver "Edgedriver" signal d

/-- The method `(*IE11Driver).Start`. -/
def IE11Driver.Start (os : StartEnv) (d : Driver) : Driver × Option GoError :=
  startDriver "IE11driver" [] os d

/-- The method `(*IE11Driver).Stop`. -/
def IE11Driver.Stop (signal : Option String) (d : Driver) : StopResult :=
  stopDriver "IE11driver" signal d

/-- The method `(*SafariDriver).Start`. -/
def SafariDriver.Start (os : StartEnv) (d : Driver) : Driver × Option GoError :=
  startDriver "Safaridriver" [] os d

/-- The method `(*SafariDriver).Stop`. -/
def SafariDriver.Stop (signal : Option String) (d : Driver) : StopResult :=
  stopDriver "Safaridriver" signal d

/-! ## Definitions used to state the properties -/

/-- The part `L` of a rendered error, in the words of the specification: the
response-code label followed by a colon and a blank, or nothing when the label
is empty. -/
def labelPart (e : CommandError) : String :=
  if e.ErrorType = "" then "" else e.ErrorType ++ ": "

/-- The part `D` of a rendered error, in the words of the specification: the
fixed text for the status `-1`, otherwise the catalogue wording of a
documented code, otherwise the fallback naming the code in decimal. -/
def descriptionPart (e : CommandError) : String :=
  if e.StatusCode = -1 then "status code not specified"
  else
    match statusCodeStrings e.StatusCode with
    | some wording => wording
    | none => "unknown status code (" ++ Itoa e.StatusCode ++ ")"

/-- The part `M` of a rendered error, in the words of the specification: a
colon, a blank and the message, or nothing when the message is empty. -/
def messagePart (e : CommandError) : String :=
  if e.Message = "" then "" else ": " ++ e.Message

/-- The envelope of the rendering example: status 13 and an error object as
value, under any session id. -/
def boomEnvelope (sessionId : String) : jsonResponse :=
  { RawSessionID := sessionId, Status := 13,
    RawValue := "\x7b\"error\":\"unknown error\",\"message\":\"boom\"\x7d" }

/-- Whether a text is a well-formed JSON object. -/
def isJSONObject (data : String) : Bool :=
  match parseJSON data with
  | some (.object _) => true
  | _ => false

/-- Whether a text is the JSON literal `null` (surrounding space allowed). -/
def isJSONNull (data : String) : Bool :=
  match parseJSON data with
  | some .null => true
  | _ => false

/-- The member names of a text that is a JSON object, in order; no names for
any other text. -/
def memberNames (data : String) : List String :=
  match parseJSON data with
  | some (.object members) => members.map fun m => m.1
  | _ => []

/-- An error envelope whose value carries a member named after the field
`StatusCode`. -/
def statusCodeEnvelope : jsonResponse :=
  { Status := 13, RawValue := "\x7b\"StatusCode\":0\x7d" }

/-- An error envelope whose value is the literal `null`. -/
def nullEnvelope : jsonResponse :=
  { Status := 13, RawValue := "null" }

/-- An error envelope whose value is a bare JSON string. -/
def bareStringEnvelope : jsonResponse :=
  { Status := 13, RawValue := "\"oops\"" }

/-- A world in which every request is built and answered with the same
response, and `Sprintf` returns its format. -/
def staticWorld (response : Response) : World :=
  { Sprintf := fun format _ => format,
    NewRequest := fun _ _ => none,
    Do := fun _ => .ok response }

/-- A response without `Location` header whose body reads as `body`. -/
def bodyResponse (status : Int) (body : String) : Response :=
  { StatusCode := status,
    Location := .error "http: no Location header in response",
    Body := .ok body }

/-- The request `newRequest` builds for a GET of `url`. -/
def getRequest (url : String) : Request :=
  { Method := "GET", URL := url, Body := "",
    Header := [("Accept", "application/json"), ("Accept-Charset", "utf-8")] }

/-- The request `newRequest` builds for a POST of `body` to `url`. -/
def postRequest (url body : String) : Request :=
  { Method := "POST", URL := url, Body := body,
    Header := [("Content-Type", "application/json;charset=utf-8"),
               ("Accept", "application/json"), ("Accept-Charset", "utf-8")] }

/-- A success envelope with a populated session id. -/
def sessionBody : String :=
  "\x7b\"sessionId\":\"abc123\",\"status\":0,\"value\":\x7b\"browserName\":\"edge\"\x7d\x7d"

/-- An error envelope: status 7 with an error object as value. -/
def noSuchElementBody : String :=
  "\x7b\"sessionId\":\"abc123\",\"status\":7,\"value\":\x7b\"message\":\"not found\"\x7d\x7d"

/-- A success envelope without top-level session id whose value nests one. -/
def nestedBody : String :=
  "\x7b\"status\":0,\"value\":\x7b\"sessionId\":\"xyz\",\"status\":0\x7d\x7d"

/-- The value of `nestedBody`. -/
def nestedValue : String := "\x7b\"sessionId\":\"xyz\",\"status\":0\x7d"

/-- A success envelope without top-level session id whose value is a bare
string. -/
def plainBody : String := "\x7b\"status\":0,\"value\":\"done\"\x7d"

/-- A success envelope without top-level session id whose value has a session
id followed by a status of the wrong type. -/
def mistypedBody : String :=
  "\x7b\"status\":0,\"value\":\x7b\"sessionId\":\"xyz\",\"status\":\"bad\"\x7d\x7d"

/-- The value of `mistypedBody`. -/
def mistypedValue : String := "\x7b\"sessionId\":\"xyz\",\"status\":\"bad\"\x7d"

/-- The answers of a server that redirects the POST of a new session to the
session's URL and serves the session there. -/
def redirectingDo (request : Request) : Except String Response :=
  if request.Method = "POST" then
    .ok { StatusCode := 303,
          Location := .ok "http://localhost:17556/session/abc123",
          Body := .ok "\x7b\"sessionId\":\"from-redirect\",\"status\":0,\"value\":null\x7d" }
  else if request.URL = "http://localhost:17556/session/abc123" then
    .ok (bodyResponse 200 sessionBody)
  else .error "connection refused"

/-- A world with the server `redirectingDo`. -/
def redirectingWorld : World :=
  { Sprintf := fun format _ => format,
    NewRequest := fun _ _ => none,
    Do := redirectingDo }

/-- The three driver types. -/
inductive Browser where
  | Edge
  | IE11
  | Safari
deriving DecidableEq, Repr

/-- The method `Start` of a driver type. -/
def Browser.Start : Browser → StartEnv → Driver → Driver × Option GoError
  | .Edge => EdgeDriver.Start
  | .IE11 => IE11Driver.Start
  | .Safari => SafariDriver.Start

/-- The method `Stop` of a driver type. -/
def Browser.Stop : Browser → Option String → Driver → StopResult
  | .Edge => EdgeDriver.Stop
  | .IE11 => IE11Driver.Stop
  | .Safari => SafariDriver.Stop

/-- The "already running" error of a driver type, as written in its source. -/
def Browser.alreadyRunning : Browser → GoError
  | .Edge => GoError.new "Edgedriver start failed: Edgedriver already running"
  | .IE11 => GoError.new "IE11driver start failed: IE11driver already running"
  | .Safari => GoError.new "Safaridriver start failed: Safaridriver already running"

/-- The "not running" error of a driver type, as written in its source. -/
def Browser.notRunning : Browser → GoError
  | .Edge => GoError.new "stop failed: Edgedriver not running"
  | .IE11 => GoError.new "stop failed: IE11driver not running"
  | .Safari => GoError.new "stop failed: Safaridriver not running"

/-- The constructor of a driver type. -/
def Browser.New : Browser → String → Driver
  | .Edge => NewEdgeDriver
  | .IE11 => NewIE11Driver
  | .Safari => NewSafariDriver

/-- An operating system on which every step of `Start` succeeds. -/
def healthyOS : StartEnv :=
  { OpenLogPath := none, StdoutPipe := none, StderrPipe := none,
    CmdStart := .ok 4242, OpenLogFile := .ok 3, ProbePort := none }

/-- An operating system on which the log path cannot be opened for writing. -/
def readOnlyOS : StartEnv :=
  { OpenLogPath := some "open /var/log/driver.log: permission denied",
    StdoutPipe := none, StderrPipe := none,
    CmdStart := .ok 4242, OpenLogFile := .ok 3, ProbePort := none }

/-- A fresh Edge driver configured with a log path. -/
def loggingEdgeDriver : Driver :=
  { NewEdgeDriver "/usr/local/bin/msedgedriver" with LogPath := "/var/log/driver.log" }

/-- The world that answers `request` with `answer` and every other request as
`env` does. -/
def World.answering (env : World) (request : Request) (answer : Except String Response) :
    World :=
  { env with Do := Function.update env.Do request answer }

/-- The prefix `csferr` of the start errors of a driver type, as written in its
source. -/
def Browser.startFailed : Browser → String
  | .Edge => "Edgedriver start failed: "
  | .IE11 => "IE11driver start failed: "
  | .Safari => "Safaridriver start failed: "

/-- The driver after a call of `Stop`, however the call ended. -/
def StopResult.driver : StopResult → Driver
  | .returns d _ => d
  | .panics d => d

/-- Whether the process handle of a driver stands for a spawned process: a
driver without handle qualifies, one with a handle only if the command has a
process. -/
def Driver.handleSpawned (d : Driver) : Bool :=
  match d.cmd with
  | none => true
  | some cmd => cmd.Process.isSome

/-- An operating system on which the driver binary cannot be executed. -/
def noBinaryOS : StartEnv :=
  { OpenLogPath := none, StdoutPipe := none, StderrPipe := none,
    CmdStart := .error "fork/exec /no/such/msedgedriver: no such file or directory",
    OpenLogFile := .ok 3, ProbePort := none }

/-- Resolution of a path against the base URL of a local driver. -/
def localParse (_base loc : String) : Except String String :=
  .ok ("http://localhost:17556" ++ loc)

/-- The rendering of the `*url.Error` of a call that began with a POST. -/
def postUrlError (_ireq : Request) (url err : String) : String :=
  "Post \"" ++ url ++ "\": " ++ err

/-- The header of a hop as the client makes it here: the header of the first
request and a `Referer` naming the URL just answered. -/
def copyHopHeader (ireq req : Request) (_url : String) : List (String × String) :=
  ireq.Header ++ [("Referer", req.URL)]

/-- The verb `%q` on a string without characters to escape. -/
def plainQuote (s : String) : String :=
  "\"" ++ s ++ "\""

/-- A response that redirects to `/loop`. -/
def loopResponse : WireResponse :=
  { StatusCode := 302, Location := "/loop", Body := .ok "" }

/-- A network whose server answers every request with a redirect to the same
place. -/
def loopNetwork : Network :=
  { RoundTrip := fun _ => .ok loopResponse,
    Parse := localParse,
    HopHeader := copyHopHeader,
    UrlError := postUrlError,
    Quote := plainQuote }

/-- The answers of a server that redirects the POST of a new session to the
session's URL and serves the session there. -/
def sessionRoundTrip (request : Request) : Except String WireResponse :=
  if request.Method = "POST" then
    .ok { StatusCode := 303, Location := "/session/abc123", Body := .ok "" }
  else if request.URL = "http://localhost:17556/session/abc123" then
    .ok { StatusCode := 200, Location := "", Body := .ok sessionBody }
  else .error "connection refused"

/-- A network with the server `sessionRoundTrip`. -/
def sessionNetwork : Network :=
  { RoundTrip := sessionRoundTrip,
    Parse := localParse,
    HopHeader := copyHopHeader,
    UrlError := postUrlError,
    Quote := plainQuote }

/-- A world in which every request is built; its `Do` is to be replaced by a
client on a network. -/
def plainWorld : World :=
  { Sprintf := fun format _ => format,
    NewRequest := fun _ _ => none,
    Do := fun _ => .error "no client" }

/-! ## The fuel of the parser -/

/-- Skipping space does not lengthen a text. -/
theorem skipSpace_length_le (cs : List Char) : (skipSpace cs).length ≤ cs.length := by
  induction cs with
  | nil => simp [skipSpace]
  | cons c cs ih =>
    unfold skipSpace
    split
    · simp only [List.length_cons]; omega
    · exact Nat.le_refl _

/-- What follows a string literal is no longer than the text scanned. -/
theorem parseString_length_le (fuel : Nat) :
    ∀ (cs s rest : List Char), parseString fuel cs = some (s, rest) →
      rest.length ≤ cs.length := by
  induction fuel with
  | zero => intro cs s rest h; simp [parseString] at h
  | succ fuel ih =>
    intro cs s rest h
    have step : ∀ (X : List Char) (g : List Char × List Char → List Char × List Char),
        (parseString fuel X).map g = some (s, rest) →
        (∀ p, (g p).2 = p.2) → X.length ≤ cs.length → rest.length ≤ cs.length := by
      intro X g hm hg hX
      obtain ⟨p, hp, hgp⟩ := Option.map_eq_some'.mp hm
      have h2 : (g p).2 = rest := by rw [hgp]
      rw [hg p] at h2
      have := ih X p.1 p.2 (by rw [hp])
      rw [← h2]
      omega
    cases cs with
    | nil => simp [parseString] at h
    | cons c cs =>
      unfold parseString at h
      dsimp only at h
      split at h
      · cases h; simp
      · split at h
        · split at h
          · cases h
          · rename_i e cs1
            split at h
            · split at h
              · cases h
              · split at h
                · split at h
                  · exact step _ _ h (fun _ => rfl) (by simp only [List.length_cons, List.length_drop]; omega)
                  · exact step _ _ h (fun _ => rfl) (by simp only [List.length_cons, List.length_drop]; omega)
                · exact step _ _ h (fun _ => rfl) (by simp only [List.length_cons, List.length_drop]; omega)
            · split at h
              · exact step _ _ h (fun _ => rfl) (by simp only [List.length_cons]; omega)
              · cases h
        · split at h
          · cases h
          · exact step _ _ h (fun _ => rfl) (by simp only [List.length_cons]; omega)

/-- Fuel beyond the length of the text does not change what `parseString`
returns. -/
theorem parseString_fuel (f1 : Nat) :
    ∀ (f2 : Nat) (cs : List Char), cs.length < f1 → cs.length < f2 →
      parseString f1 cs = parseString f2 cs := by
  induction f1 with
  | zero => intro f2 cs h1 _; omega
  | succ f1 ih =>
    intro f2 cs h1 h2
    cases f2 with
    | zero => omega
    | succ f2 =>
      cases cs with
      | nil => simp only [parseString]
      | cons c cs =>
        simp only [List.length_cons] at h1 h2
        have key : ∀ X : List Char, X.length ≤ cs.length →
            parseString f1 X = parseString f2 X :=
          fun X hX => ih f2 X (by omega) (by omega)
        cases cs with
        | nil => simp only [parseString, key [] (Nat.le_refl _)]
        | cons e cs1 =>
          simp only [parseString, key (e :: cs1) (Nat.le_refl _),
            key cs1 (by simp only [List.length_cons]; omega),
            key (cs1.drop 4) (by simp only [List.length_cons, List.length_drop]; omega),
            key ((cs1.drop 4).drop 6)
              (by simp only [List.length_cons, List.length_drop]; omega)]

/-- The text after the first character that is not space is shorter than the
whole. -/
theorem skipSpace_cons_length (cs r : List Char) (c : Char) (h : skipSpace cs = c :: r) :
    r.length < cs.length := by
  have := skipSpace_length_le cs
  rw [h] at this
  simp only [List.length_cons] at this
  omega

/-- What follows a run of digits is no longer than the text scanned. -/
theorem takeDigits_length_le (cs : List Char) : (takeDigits cs).2.length ≤ cs.length := by
  induction cs with
  | nil => simp [takeDigits]
  | cons c cs ih =>
    unfold takeDigits
    split
    · simp only [List.length_cons]; omega
    · exact Nat.le_refl _

/-- What follows an integer part is no longer than the text scanned. -/
theorem scanInt_length_le (cs lit rest : List Char) (h : scanInt cs = some (lit, rest)) :
    rest.length ≤ cs.length := by
  unfold scanInt at h
  split at h
  · cases h
  · rename_i c cs1
    have := takeDigits_length_le cs1
    split at h
    · cases h; simp
    · split at h
      · cases h; simp only [List.length_cons]; omega
      · cases h

/-- What follows a fraction is no longer than the text scanned. -/
theorem scanFrac_length_le (cs lit rest : List Char) (h : scanFrac cs = some (lit, rest)) :
    rest.length ≤ cs.length := by
  unfold scanFrac at h
  split at h
  · rename_i cs1
    have := takeDigits_length_le cs1
    split at h
    · cases h
    · rename_i ds r heq
      cases h
      have h2 : (takeDigits cs1).2 = rest := by rw [heq]
      rw [← h2]; simp only [List.length_cons]; omega
  · cases h; exact Nat.le_refl _

/-- What follows the digits of an exponent is no longer than the text scanned. -/
theorem scanExpDigits_length_le (pre cs lit rest : List Char)
    (h : scanExpDigits pre cs = some (lit, rest)) : rest.length ≤ cs.length := by
  unfold scanExpDigits at h
  have := takeDigits_length_le cs
  split at h
  · cases h
  · rename_i ds r heq
    cases h
    have h2 : (takeDigits cs).2 = rest := by rw [heq]
    rw [← h2]; exact this

/-- What follows an exponent is no longer than the text scanned. -/
theorem scanExp_length_le (cs lit rest : List Char) (h : scanExp cs = some (lit, rest)) :
    rest.length ≤ cs.length := by
  unfold scanExp at h
  split at h
  · cases h; exact Nat.le_refl _
  · rename_i c cs1
    split at h
    · split at h
      · rename_i s cs2
        split at h
        · have := scanExpDigits_length_le _ _ _ _ h
          simp only [List.length_cons]; omega
        · have := scanExpDigits_length_le _ _ _ _ h
          simp only [List.length_cons] at this ⊢; omega
      · cases h
    · cases h; exact Nat.le_refl _

/-- What follows a number literal is no longer than the text scanned. -/
theorem parseNumber_length_le (cs lit rest : List Char)
    (h : parseNumber cs = some (lit, rest)) : rest.length ≤ cs.length := by
  unfold parseNumber at h
  dsimp only at h
  have hsigned : (match cs with
      | '-' :: rest => (['-'], rest)
      | _ => ([], cs)).2.length ≤ cs.length := by
    split
    · simp
    · exact Nat.le_refl _
  split at h
  · cases h
  · rename_i ip r1 h1
    have := scanInt_length_le _ _ _ h1
    split at h
    · cases h
    · rename_i fp r2 h2
      have := scanFrac_length_le _ _ _ h2
      split at h
      · cases h
      · rename_i ep r3 h3
        have := scanExp_length_le _ _ _ h3
        cases h
        omega

/-- What follows a value, the elements of an array or the members of an
object is no longer than the text scanned. -/
theorem parse_length_le (fuel : Nat) :
    (∀ (d : Nat) (cs : List Char) (v : Value) (rest : List Char),
      parseValue fuel d cs = some (v, rest) → rest.length ≤ cs.length) ∧
    (∀ (d : Nat) (acc : List Value) (cs : List Char) (v : Value) (rest : List Char),
      parseElems fuel d acc cs = some (v, rest) → rest.length ≤ cs.length) ∧
    (∀ (d : Nat) (acc : List (String × String × Value)) (cs : List Char) (v : Value)
      (rest : List Char),
      parseMembers fuel d acc cs = some (v, rest) → rest.length ≤ cs.length) := by
  induction fuel with
  | zero =>
    refine ⟨?_, ?_, ?_⟩
    · intro d cs v rest h; simp [parseValue] at h
    · intro d acc cs v rest h; simp [parseElems] at h
    · intro d acc cs v rest h; simp [parseMembers] at h
  | succ fuel ih =>
    obtain ⟨ihV, ihE, ihM⟩ := ih
    refine ⟨?_, ?_, ?_⟩
    · intro d cs v rest h
      cases hs : skipSpace cs with
      | nil => simp [parseValue, hs] at h
      | cons c r0 =>
        have hr0 := skipSpace_cons_length cs r0 c hs
        simp only [parseValue, hs] at h
        split at h
        · split at h
          · split at h
            · rename_i r heq
              have := skipSpace_cons_length _ _ _ heq
              cases h; omega
            · have := ihM _ _ _ _ _ h
              omega
          · cases h
        · split at h
          · split at h
            · split at h
              · rename_i r heq
                have := skipSpace_cons_length _ _ _ heq
                cases h; omega
              · have := ihE _ _ _ _ _ h
                omega
            · cases h
          · split at h
            · obtain ⟨p, hp, hgp⟩ := Option.map_eq_some'.mp h
              have := parseString_length_le _ _ p.1 p.2 (by rw [hp])
              cases hgp; omega
            · split at h
              · obtain ⟨p, hp, hgp⟩ := Option.map_eq_some'.mp h
                have := parseNumber_length_le _ p.1 p.2 (by rw [hp])
                simp only [List.length_cons] at this
                cases hgp; omega
              · split at h
                all_goals first
                  | (rename_i heq
                     have hl := congrArg List.length heq
                     simp only [List.length_cons] at hl
                     cases h
                     omega)
                  | cases h
    · intro d acc cs v rest h
      simp only [parseElems] at h
      split at h
      · cases h
      · rename_i v1 r1 h1
        have := ihV _ _ _ _ h1
        split at h
        · rename_i r heq
          have := skipSpace_cons_length _ _ _ heq
          have := ihE _ _ _ _ _ h
          omega
        · rename_i r heq
          have := skipSpace_cons_length _ _ _ heq
          cases h; omega
        · cases h
    · intro d acc cs v rest h
      simp only [parseMembers] at h
      split at h
      · rename_i aq hq
        have := skipSpace_cons_length _ _ _ hq
        split at h
        · cases h
        · rename_i key ak hk
          have := parseString_length_le _ _ _ _ hk
          split at h
          · rename_i ac hc
            have := skipSpace_cons_length _ _ _ hc
            have := skipSpace_length_le ac
            split at h
            · cases h
            · rename_i v1 r1 h1
              have := ihV _ _ _ _ h1
              split at h
              · rename_i r heq
                have := skipSpace_cons_length _ _ _ heq
                have := ihM _ _ _ _ _ h
                omega
              · rename_i r heq
                have := skipSpace_cons_length _ _ _ heq
                cases h; omega
              · cases h
          · cases h
      · cases h

/-- Two amounts of fuel of at least twice the length of the text (plus one for
a value, plus two inside a container) give the same result. -/
theorem parse_fuel (f1 : Nat) :
    (∀ (f2 d : Nat) (cs : List Char), 2 * cs.length + 1 ≤ f1 → 2 * cs.length + 1 ≤ f2 →
      parseValue f1 d cs = parseValue f2 d cs) ∧
    (∀ (f2 d : Nat) (acc : List Value) (cs : List Char),
      2 * cs.length + 2 ≤ f1 → 2 * cs.length + 2 ≤ f2 →
      parseElems f1 d acc cs = parseElems f2 d acc cs) ∧
    (∀ (f2 d : Nat) (acc : List (String × String × Value)) (cs : List Char),
      2 * cs.length + 2 ≤ f1 → 2 * cs.length + 2 ≤ f2 →
      parseMembers f1 d acc cs = parseMembers f2 d acc cs) := by
  induction f1 with
  | zero =>
    refine ⟨?_, ?_, ?_⟩
    · intro f2 d cs h1 _; omega
    · intro f2 d acc cs h1 _; omega
    · intro f2 d acc cs h1 _; omega
  | succ f1 ih =>
    obtain ⟨ihV, ihE, ihM⟩ := ih
    refine ⟨?_, ?_, ?_⟩
    · intro f2 d cs h1 h2
      cases f2 with
      | zero => omega
      | succ f2 =>
        cases hs : skipSpace cs with
        | nil => simp only [parseValue, hs]
        | cons c r0 =>
          have hr0 := skipSpace_cons_length cs r0 c hs
          simp only [parseValue, hs]
          rw [ihM f2 (d + 1) [] r0 (by omega) (by omega),
            ihE f2 (d + 1) [] r0 (by omega) (by omega)]
    · intro f2 d acc cs h1 h2
      cases f2 with
      | zero => omega
      | succ f2 =>
        simp only [parseElems]
        rw [ihV f2 d cs (by omega) (by omega)]
        split
        · rfl
        · rename_i v1 r1 h1v
          have := (parse_length_le f2).1 _ _ _ _ h1v
          split
          · rename_i r heq
            have := skipSpace_cons_length _ _ _ heq
            exact ihE f2 d _ r (by omega) (by omega)
          · rfl
          · rfl
    · intro f2 d acc cs h1 h2
      cases f2 with
      | zero => omega
      | succ f2 =>
        simp only [parseMembers]
        split
        · rename_i aq hq
          have := skipSpace_cons_length _ _ _ hq
          split
          · rfl
          · rename_i key ak hk
            have := parseString_length_le _ _ _ _ hk
            split
            · rename_i ac hc
              have := skipSpace_cons_length _ _ _ hc
              have := skipSpace_length_le ac
              rw [ihV f2 d (skipSpace ac) (by omega) (by omega)]
              split
              · rfl
              · rename_i v1 r1 h1v
                have := (parse_length_le f2).1 _ _ _ _ h1v
                split
                · rename_i r heq
                  have := skipSpace_cons_length _ _ _ heq
                  exact ihM f2 d _ r (by omega) (by omega)
                · rfl
                · rfl
            · rfl
        · rfl

/-- Fuel beyond what `parseJSON` hands to `parseValue` does not change the result. -/
theorem parseValue_fuel (fuel depth : Nat) (cs : List Char)
    (h : 2 * cs.length + 1 ≤ fuel) :
    parseValue fuel depth cs = parseValue (2 * cs.length + 1) depth cs :=
  (parse_fuel fuel).1 _ depth cs h (Nat.le_refl _)

/-! ## Rendering of a `CommandError` -/

/-- A string of length zero is the empty string. -/
theorem eq_empty_of_length_eq_zero (s : String) (h : s.length = 0) : s = "" := by
  cases s with
  | mk data =>
    have hd : data = [] := List.length_eq_zero.mp h
    subst hd
    rfl

/-- The three appends of `Error` produce label, description and message. -/
theorem CommandError.Error_parts (e : CommandError) :
    e.Error = labelPart e ++ descriptionPart e ++ messagePart e := by
  unfold CommandError.Error labelPart descriptionPart messagePart
  by_cases h1 : e.ErrorType = "" <;> by_cases h2 : e.StatusCode = -1 <;>
    by_cases h3 : e.Message = "" <;> simp [h1, h2, h3] <;>
    cases statusCodeStrings e.StatusCode <;> simp [String.append_assoc]

/-- No wording of the catalogue is empty. -/
theorem statusCodeStrings_ne_empty (code : Int) (str : String)
    (h : statusCodeStrings code = some str) : str ≠ "" := by
  unfold statusCodeStrings at h
  split at h <;> first | (cases h; decide) | cases h

/-- The description is never empty. -/
theorem descriptionPart_ne_empty (e : CommandError) : descriptionPart e ≠ "" := by
  unfold descriptionPart
  split
  · decide
  · split
    · rename_i wording hw
      exact statusCodeStrings_ne_empty _ _ hw
    · intro h
      have := congrArg String.length h
      simp only [String.length_append] at this
      have h3 : ")".length = 1 := by decide
      have h0 : "".length = 0 := by decide
      omega

/-- C1, as the code has it: for HTTP status 500 and an envelope with status 13
whose value is the object with `error` "unknown error" and `message` "boom",
the member `error` of the value replaces the response-code label, so the error
renders with "unknown error" in front. -/
theorem parseError_boom_renders (sessionId : String) :
    (parseError 500 (boomEnvelope sessionId)).Error =
      "unknown error: An unknown server-side error occurred while processing the command.: boom" := by
  rfl

/-- C1 fails as stated: the rendering of that error is not the string that
starts with the label "500: Failed Command". -/
theorem parseError_boom_not_labelled :
    (parseError 500 (boomEnvelope "")).Error ≠
      "500: Failed Command: An unknown server-side error occurred while processing the command.: boom" := by
  decide

/-- C2: every `CommandError` renders as label, description and message in
this order; with empty label and message a code outside the catalogue renders
as "unknown status code (N)" and `-1` as "status code not specified". -/
theorem CommandError.Error_eq_label_description_message (e : CommandError) :
    e.Error = labelPart e ++ descriptionPart e ++ messagePart e ∧
    (∀ N : Int, N ≠ -1 → statusCodeStrings N = none →
      CommandError.Error { StatusCode := N } = "unknown status code (" ++ Itoa N ++ ")") ∧
    CommandError.Error { StatusCode := -1 } = "status code not specified" := by
  refine ⟨CommandError.Error_parts e, ?_, by decide⟩
  intro N hN hcat
  rw [CommandError.Error_parts]
  simp [labelPart, descriptionPart, messagePart, hN, hcat]

/-- C2 at concrete values: a full error with a documented code, and the two
fallbacks with the numbers written out. -/
theorem CommandError.Error_eq_label_description_message_witness :
    CommandError.Error { StatusCode := 7,
                         ErrorType := "404: Unknown command/Resource Not Found",
                         Message := "no such element" } =
      "404: Unknown command/Resource Not Found: An element could not be located on the page using the given search parameters.: no such element" ∧
    CommandError.Error { StatusCode := 99 } = "unknown status code (99)" ∧
    CommandError.Error { StatusCode := -7 } = "unknown status code (-7)" ∧
    CommandError.Error { StatusCode := -1 } = "status code not specified" :=
  ⟨by decide,
   (CommandError.Error_eq_label_description_message {}).2.1 99 (by decide) (by decide),
   (CommandError.Error_eq_label_description_message {}).2.1 (-7) (by decide) (by decide),
   (CommandError.Error_eq_label_description_message {}).2.2⟩

/-- C10: `Error()` never returns the empty string, whatever the fields hold. -/
theorem CommandError.Error_ne_empty (e : CommandError) : e.Error ≠ "" := by
  rw [CommandError.Error_parts]
  intro h
  have := congrArg String.length h
  simp only [String.length_append] at this
  have h0 : "".length = 0 := by decide
  exact descriptionPart_ne_empty e (eq_empty_of_length_eq_zero _ (by omega))

/-! ## Error translation -/

/-- A member name selects a field only if the two agree up to case. -/
theorem findField_fold (names : List String) (key n : String)
    (h : findField names key = some n) : foldName n = foldName key := by
  unfold findField at h
  split at h
  · rename_i m hm
    cases h
    have := List.find?_some hm
    simpa using congrArg foldName (of_decide_eq_true this)
  · have := List.find?_some h
    exact of_decide_eq_true this

/-- A member that is not named after `StatusCode` leaves that field alone. -/
theorem CommandError.storeMember_StatusCode (acc : CommandError × Bool)
    (m : String × String × Value) (h : foldName m.1 ≠ foldName "StatusCode") :
    (CommandError.storeMember acc m).1.StatusCode = acc.1.StatusCode := by
  unfold CommandError.storeMember
  split
  · rename_i hf
    exact absurd (findField_fold _ _ _ hf).symm h
  all_goals rfl

/-- Members none of which is named after `StatusCode` leave that field alone. -/
theorem CommandError.foldl_storeMember_StatusCode (ms : List (String × String × Value))
    (acc : CommandError × Bool) (h : ∀ m ∈ ms, foldName m.1 ≠ foldName "StatusCode") :
    (ms.foldl CommandError.storeMember acc).1.StatusCode = acc.1.StatusCode := by
  induction ms generalizing acc with
  | nil => rfl
  | cons m ms ih =>
    rw [List.foldl_cons, ih _ (fun x hx => h x (List.mem_cons_of_mem _ hx))]
    exact CommandError.storeMember_StatusCode acc m (h m (List.mem_cons_self _ _))

/-- Unmarshalling a text without a member named after `StatusCode` leaves
that field of the target alone. -/
theorem unmarshalCommandError_StatusCode (data : String) (e : CommandError)
    (h : ∀ k ∈ memberNames data, foldName k ≠ foldName "StatusCode") :
    (unmarshalCommandError data e).1.StatusCode = e.StatusCode := by
  unfold unmarshalCommandError
  unfold memberNames at h
  cases hp : parseJSON data with
  | none => rfl
  | some v =>
    rw [hp] at h
    cases v with
    | object ms =>
      simp only [storeCommandError]
      apply CommandError.foldl_storeMember_StatusCode
      intro m hm
      exact h m.1 (List.mem_map_of_mem _ hm)
    | _ => rfl

/-- Unmarshalling a text that is neither a JSON object nor `null` into a
`CommandError` fails and leaves the target as it was. -/
theorem unmarshalCommandError_of_not_object (data : String) (e : CommandError)
    (ho : isJSONObject data = false) (hn : isJSONNull data = false) :
    unmarshalCommandError data e = (e, true) := by
  unfold unmarshalCommandError
  unfold isJSONObject at ho
  unfold isJSONNull at hn
  cases hp : parseJSON data with
  | none => rfl
  | some v =>
    rw [hp] at ho hn
    cases v with
    | object ms => simp at ho
    | null => simp at hn
    | _ => rfl

/-- C8, as the code has it: when the value of the envelope is not a JSON
object with a member named after `StatusCode` (up to case), the error
`parseError` returns has `StatusCode` equal to `-1` for envelope status 0 and
to the envelope status otherwise, and so never 0. -/
theorem parseError_StatusCode (c : Int) (jr : jsonResponse)
    (h : ∀ k ∈ memberNames jr.RawValue, foldName k ≠ foldName "StatusCode") :
    (parseError c jr).StatusCode = (if jr.Status = 0 then -1 else jr.Status) ∧
    (parseError c jr).StatusCode ≠ 0 := by
  have key : (parseError c jr).StatusCode = (if jr.Status = 0 then -1 else jr.Status) := by
    unfold parseError
    simp only [apply_ite CommandError.StatusCode, unmarshalCommandError_StatusCode _ _ h,
      ite_self]
  refine ⟨key, ?_⟩
  rw [key]
  split
  · decide
  · assumption

/-- C8 at the rendering example, whose value has the members `error` and
`message` only. -/
theorem parseError_StatusCode_witness :
    (parseError 500 (boomEnvelope "abc")).StatusCode = 13 ∧
    (parseError 500 (boomEnvelope "abc")).StatusCode ≠ 0 :=
  parseError_StatusCode 500 (boomEnvelope "abc") (by decide)

/-- C8 fails as stated: a value with a member `StatusCode` overwrites the
status taken from the envelope, here 13, with its own number, here 0. -/
theorem parseError_StatusCode_overwritten :
    (parseError 500 statusCodeEnvelope).StatusCode = 0 ∧
    (parseError 500 statusCodeEnvelope).StatusCode ≠
      (if statusCodeEnvelope.Status = 0 then -1 else statusCodeEnvelope.Status) := by
  decide

/-- C9, as the code has it: when the value of the envelope is neither a JSON
object nor the literal `null`, the error `parseError` returns has the raw
value text as `Message` and the response-code label of the HTTP status as
`ErrorType`. -/
theorem parseError_of_not_object (c : Int) (jr : jsonResponse)
    (ho : isJSONObject jr.RawValue = false) (hn : isJSONNull jr.RawValue = false) :
    (parseError c jr).Message = jr.RawValue ∧
    (c = 200 → (parseError c jr).ErrorType = "") ∧
    (c = 400 → (parseError c jr).ErrorType = "400: Missing Command Parameters") ∧
    (c = 404 → (parseError c jr).ErrorType = "404: Unknown command/Resource Not Found") ∧
    (c = 405 → (parseError c jr).ErrorType = "405: Invalid Command Method") ∧
    (c = 500 → (parseError c jr).ErrorType = "500: Failed Command") ∧
    (c = 501 → (parseError c jr).ErrorType = "501: Unimplemented Command") ∧
    (c ≠ 200 → c ≠ 400 → c ≠ 404 → c ≠ 405 → c ≠ 500 → c ≠ 501 →
      (parseError c jr).ErrorType = "Unknown error") := by
  unfold parseError
  simp only [unmarshalCommandError_of_not_object _ _ ho hn]
  refine ⟨rfl, ?_, ?_, ?_, ?_, ?_, ?_, ?_⟩
  · intro h; subst h; rfl
  · intro h; subst h; rfl
  · intro h; subst h; rfl
  · intro h; subst h; rfl
  · intro h; subst h; rfl
  · intro h; subst h; rfl
  · intro h1 h2 h3 h4 h5 h6
    simp only []
    split <;> first | contradiction | rfl

/-- C9 at a bare JSON string, for a listed and for an unlisted HTTP status:
the message keeps the quotes of the raw text. -/
theorem parseError_of_not_object_witness :
    (parseError 404 bareStringEnvelope).Message = "\"oops\"" ∧
    (parseError 404 bareStringEnvelope).ErrorType = "404: Unknown command/Resource Not Found" ∧
    (parseError 418 bareStringEnvelope).ErrorType = "Unknown error" :=
  ⟨(parseError_of_not_object 404 bareStringEnvelope (by decide) (by decide)).1,
   (parseError_of_not_object 404 bareStringEnvelope (by decide) (by decide)).2.2.2.1 (by decide),
   (parseError_of_not_object 418 bareStringEnvelope (by decide) (by decide)).2.2.2.2.2.2.2
     (by decide) (by decide) (by decide) (by decide) (by decide) (by decide)⟩

/-- C9 fails as stated: the literal `null` is not a JSON object, yet it
unmarshals without error, so the message stays empty instead of taking the
raw text. -/
theorem parseError_null_value_message :
    isJSONObject nullEnvelope.RawValue = false ∧
    (parseError 500 nullEnvelope).Message = "" ∧
    (parseError 500 nullEnvelope).Message ≠ nullEnvelope.RawValue := by
  decide

/-! ## Transport core -/

/-- The request `newRequest` builds carries the method it was given. -/
theorem newRequest_Method (env : World) (method path data : String) (request : Request)
    (h : newRequest env method path data = .ok request) : request.Method = method := by
  unfold newRequest at h
  split at h
  · cases h
  · cases h; rfl

/-- A response that is not a redirect of a POST is decoded: `doInternal`
issues the one request and returns what `decodeResponse` makes of the body. -/
theorem doInternal_of_response (env : World) (w : WebDriverCore) (params : Option Any)
    (method path body : String) (request : Request) (response : Response) (buf : String)
    (hm : marshalParams params method = .ok body)
    (hr : newRequest env method path body = .ok request)
    (hd : env.Do request = .ok response)
    (hn : ¬ (method = "POST" ∧ isRedirect response = true))
    (hb : response.Body = .ok buf) :
    w.doInternal env params method path = (decodeResponse response.StatusCode buf, [request]) := by
  rw [WebDriverCore.doInternal.eq_def]
  simp only [hm, hr, hd, hb, dif_neg hn]

/-- A redirected POST with a usable `Location` returns what the GET of that
location returns, and issues the POST followed by the requests of the GET. -/
theorem doInternal_of_redirect (env : World) (w : WebDriverCore) (params : Option Any)
    (path body : String) (request : Request) (response : Response) (url : String)
    (hm : marshalParams params "POST" = .ok body)
    (hr : newRequest env "POST" path body = .ok request)
    (hd : env.Do request = .ok response)
    (hs : isRedirect response = true)
    (hl : response.Location = .ok url) :
    w.doInternal env params "POST" path =
      ((w.doInternal env none "GET" url).1, request :: (w.doInternal env none "GET" url).2) := by
  rw [WebDriverCore.doInternal.eq_def]
  simp only [hm, hr, hd, hl, hs, and_self, dite_true]

/-- A call with a method other than POST makes no recursive call: it fails
before or at the request, or decodes the response. -/
theorem doInternal_of_ne_post (env : World) (w : WebDriverCore) (params : Option Any)
    (method path : String) (h : method ≠ "POST") :
    w.doInternal env params method path =
      match newRequest env method path "" with
      | .error err => ({ sessionID := "", data := "", err := some (GoError.ext err) }, [])
      | .ok request =>
        match env.Do request with
        | .error err => ({ sessionID := "", data := "", err := some (GoError.ext err) }, [request])
        | .ok response =>
          match response.Body with
          | .error err =>
            ({ sessionID := "", data := "", err := some (GoError.ext err) }, [request])
          | .ok buf => (decodeResponse response.StatusCode buf, [request]) := by
  rw [WebDriverCore.doInternal.eq_def]
  simp only [marshalParams, h, false_and, dite_false, ite_false, if_false]

/-- The only `errors.New` value `decodeResponse` returns is the one for a body
that is not an envelope. -/
theorem decodeResponse_err_new (status : Int) (buf text : String)
    (h : (decodeResponse status buf).err = some (GoError.new text)) :
    text = "error: response must be a JSON object" := by
  unfold decodeResponse at h
  simp only [] at h
  split at h
  · simp at h; exact h.symm
  · split at h
    · simp at h
    · simp at h

/-- The only `errors.New` value a call with a method other than POST returns
is the one for a body that is not an envelope. -/
theorem doInternal_err_new_of_ne_post (env : World) (w : WebDriverCore) (params : Option Any)
    (method path text : String) (hne : method ≠ "POST")
    (h : (w.doInternal env params method path).1.err = some (GoError.new text)) :
    text = "error: response must be a JSON object" := by
  rw [doInternal_of_ne_post env w params method path hne] at h
  split at h
  · simp at h
  · split at h
    · simp at h
    · split at h
      · simp at h
      · exact decodeResponse_err_new _ _ _ h

/-- The only `errors.New` value `doInternal` returns is the one for a body
that is not an envelope. -/
theorem doInternal_err_new (env : World) (w : WebDriverCore) (params : Option Any)
    (method path text : String)
    (h : (w.doInternal env params method path).1.err = some (GoError.new text)) :
    text = "error: response must be a JSON object" := by
  by_cases hp : method = "POST"
  · subst hp
    rw [WebDriverCore.doInternal.eq_def] at h
    split at h
    · simp at h
    · split at h
      · simp at h
      · split at h
        · simp at h
        · split at h
          · split at h
            · simp at h
            · exact doInternal_err_new_of_ne_post env w none "GET" _ text (by decide) h
          · split at h
            · simp at h
            · exact decodeResponse_err_new _ _ _ h
  · exact doInternal_err_new_of_ne_post env w params method path text hp h

/-- A GET is decided by how requests are built and by the answers to GET
requests alone. -/
theorem doInternal_get_congr (env1 env2 : World) (w : WebDriverCore) (params : Option Any)
    (path : String) (hN : env1.NewRequest = env2.NewRequest)
    (hD : ∀ request : Request, request.Method = "GET" → env1.Do request = env2.Do request) :
    w.doInternal env1 params "GET" path = w.doInternal env2 params "GET" path := by
  rw [doInternal_of_ne_post env1 w params "GET" path (by decide),
    doInternal_of_ne_post env2 w params "GET" path (by decide)]
  have hreq : newRequest env1 "GET" path "" = newRequest env2 "GET" path "" := by
    unfold newRequest
    rw [hN]
  rw [hreq]
  cases hq : newRequest env2 "GET" path "" with
  | error err => rfl
  | ok request =>
    simp only []
    rw [hD request (newRequest_Method env2 "GET" path "" request hq)]

/-- The requests a GET issues: at most one, a GET of the given URL with an
empty body. -/
theorem doInternal_get_requests (env : World) (w : WebDriverCore) (url : String) :
    ∀ request ∈ (w.doInternal env none "GET" url).2,
      request.Method = "GET" ∧ request.URL = url ∧ request.Body = "" := by
  rw [doInternal_of_ne_post env w none "GET" url (by decide)]
  have hfields : ∀ request, newRequest env "GET" url "" = .ok request →
      request.Method = "GET" ∧ request.URL = url ∧ request.Body = "" := by
    intro request h
    unfold newRequest at h
    split at h
    · cases h
    · cases h; exact ⟨rfl, rfl, rfl⟩
  cases hq : newRequest env "GET" url "" with
  | error err => intro request hmem; simp at hmem
  | ok request =>
    have hf := hfields request hq
    simp only []
    intro r hmem
    have hr : r = request := by
      cases hdo : env.Do request with
      | error err => rw [hdo] at hmem; simpa using hmem
      | ok response =>
        rw [hdo] at hmem
        simp only [] at hmem
        cases hbody : response.Body with
        | error err => rw [hbody] at hmem; simpa using hmem
        | ok buf => rw [hbody] at hmem; simpa using hmem
    rw [hr]
    exact hf

/-- C3: once the body of a response that is not a redirected POST has decoded
into an envelope, the call succeeds exactly when the HTTP status is below 400
and the envelope status is 0; otherwise it returns empty session id and value
and the error `parseError` makes of the HTTP status and the envelope. -/
theorem doInternal_success_iff (env : World) (w : WebDriverCore) (params : Option Any)
    (method path body : String) (request : Request) (response : Response) (buf : String)
    (jr : jsonResponse)
    (hm : marshalParams params method = .ok body)
    (hr : newRequest env method path body = .ok request)
    (hd : env.Do request = .ok response)
    (hn : ¬ (method = "POST" ∧ isRedirect response = true))
    (hb : response.Body = .ok buf)
    (hj : decodeJsonResponse buf {} = (jr, false)) :
    ((w.doInternal env params method path).1.err = none ↔
      (response.StatusCode < 400 ∧ jr.Status = 0)) ∧
    (¬ (response.StatusCode < 400 ∧ jr.Status = 0) →
      (w.doInternal env params method path).1 =
        { sessionID := "", data := "",
          err := some (GoError.command (parseError response.StatusCode jr)) }) := by
  rw [doInternal_of_response env w params method path body request response buf hm hr hd hn hb]
  unfold decodeResponse
  simp only [hj]
  by_cases hc : response.StatusCode ≥ 400 ∨ jr.Status ≠ 0
  · have hneg : ¬ (response.StatusCode < 400 ∧ jr.Status = 0) := by
      rintro ⟨h1, h2⟩
      rcases hc with h | h
      · omega
      · exact h h2
    simp [hc, hneg]
  · have hpos : response.StatusCode < 400 ∧ jr.Status = 0 := by
      constructor
      · by_contra h; exact hc (Or.inl (by omega))
      · by_contra h; exact hc (Or.inr h)
    have h1 := hpos.1
    have h4 : ¬ (400 ≤ response.StatusCode) := by omega
    simp [hpos, h4]

/-- C3 at a success and at a failure: a 200 with envelope status 0 returns the
session id and value without error, a 404 with envelope status 7 returns the
translated error. -/
theorem doInternal_success_iff_witness :
    (WebDriverCore.doInternal (staticWorld (bodyResponse 200 sessionBody)) {} none "GET"
        "http://localhost:17556/session/abc123").1.err = none ∧
    (WebDriverCore.doInternal (staticWorld (bodyResponse 404 noSuchElementBody)) {} none "GET"
        "http://localhost:17556/session/abc123/element").1 =
      { sessionID := "", data := "",
        err := some (GoError.command
          { StatusCode := 7, ErrorType := "404: Unknown command/Resource Not Found",
            Message := "not found" }) } :=
  ⟨(doInternal_success_iff (staticWorld (bodyResponse 200 sessionBody)) {} none "GET"
      "http://localhost:17556/session/abc123" ""
      (getRequest "http://localhost:17556/session/abc123")
      (bodyResponse 200 sessionBody) sessionBody
      { RawSessionID := "abc123", Status := 0, RawValue := "\x7b\"browserName\":\"edge\"\x7d" }
      rfl rfl rfl (by decide) rfl (by decide)).1.2 (by decide),
   (doInternal_success_iff (staticWorld (bodyResponse 404 noSuchElementBody)) {} none "GET"
      "http://localhost:17556/session/abc123/element" ""
      (getRequest "http://localhost:17556/session/abc123/element")
      (bodyResponse 404 noSuchElementBody) noSuchElementBody
      { RawSessionID := "abc123", Status := 7, RawValue := "\x7b\"message\":\"not found\"\x7d" }
      rfl rfl rfl (by decide) rfl (by decide)).2 (by decide)⟩

/-- Unmarshalling a text that is not a JSON object into an envelope stores
nothing. -/
theorem unmarshalJsonResponse_of_not_object (data : String) (jr : jsonResponse)
    (ho : isJSONObject data = false) : (unmarshalJsonResponse data jr).1 = jr := by
  unfold unmarshalJsonResponse
  unfold isJSONObject at ho
  cases hp : parseJSON data with
  | none => rfl
  | some v =>
    rw [hp] at ho
    cases v with
    | object ms => simp at ho
    | _ => rfl

/-- C4, as the code has it: for a successful envelope whose top-level session
id is empty, `doInternal` returns the session id that unmarshalling the value
into an envelope leaves behind, whether or not that unmarshalling reports an
error: the nested id when it is non-empty, the empty outer id otherwise, and
otherwise in particular whenever the value is not a JSON object. The call
succeeds and the returned value is the outer value, unmodified. -/
theorem doInternal_nested_session_id (env : World) (w : WebDriverCore) (params : Option Any)
    (method path body : String) (request : Request) (response : Response) (buf : String)
    (jr : jsonResponse)
    (hm : marshalParams params method = .ok body)
    (hr : newRequest env method path body = .ok request)
    (hd : env.Do request = .ok response)
    (hn : ¬ (method = "POST" ∧ isRedirect response = true))
    (hb : response.Body = .ok buf)
    (hj : decodeJsonResponse buf {} = (jr, false))
    (hs : response.StatusCode < 400) (h0 : jr.Status = 0) (he : jr.RawSessionID = "") :
    ((unmarshalJsonResponse jr.RawValue {}).1.RawSessionID ≠ "" →
      (w.doInternal env params method path).1 =
        { sessionID := (unmarshalJsonResponse jr.RawValue {}).1.RawSessionID,
          data := jr.RawValue, err := none }) ∧
    ((unmarshalJsonResponse jr.RawValue {}).1.RawSessionID = "" →
      (w.doInternal env params method path).1 =
        { sessionID := "", data := jr.RawValue, err := none }) ∧
    (isJSONObject jr.RawValue = false →
      (unmarshalJsonResponse jr.RawValue {}).1.RawSessionID = "") := by
  rw [doInternal_of_response env w params method path body request response buf hm hr hd hn hb]
  unfold decodeResponse
  have h4 : ¬ (400 ≤ response.StatusCode) := by omega
  have hl : jr.RawSessionID.length = 0 := by rw [he]; rfl
  simp only [hj]
  refine ⟨?_, ?_, ?_⟩
  · intro hne
    have hpos : 0 < (unmarshalJsonResponse jr.RawValue {}).1.RawSessionID.length := by
      rcases Nat.eq_zero_or_pos (unmarshalJsonResponse jr.RawValue {}).1.RawSessionID.length
        with hz | hz
      · exact absurd (eq_empty_of_length_eq_zero _ hz) hne
      · exact hz
    simp [h4, h0, hl, hpos]
  · intro hemp
    have hz : ¬ (0 < (unmarshalJsonResponse jr.RawValue {}).1.RawSessionID.length) := by
      rw [hemp]; decide
    simp [h4, h0, hl, hz, he]
  · intro ho
    rw [unmarshalJsonResponse_of_not_object _ _ ho]

/-- C4 at its example and at a value that is no envelope: the nested id `xyz`
is recovered from the value, a bare string as value leaves the id empty, and
the value comes back as it was received. -/
theorem doInternal_nested_session_id_witness :
    (WebDriverCore.doInternal (staticWorld (bodyResponse 200 nestedBody)) {} none "GET"
        "http://localhost:17556/session").1 =
      { sessionID := "xyz", data := nestedValue, err := none } ∧
    (WebDriverCore.doInternal (staticWorld (bodyResponse 200 plainBody)) {} none "GET"
        "http://localhost:17556/session").1 =
      { sessionID := "", data := "\"done\"", err := none } :=
  ⟨(doInternal_nested_session_id (staticWorld (bodyResponse 200 nestedBody)) {} none "GET"
      "http://localhost:17556/session" "" (getRequest "http://localhost:17556/session")
      (bodyResponse 200 nestedBody) nestedBody
      { RawSessionID := "", Status := 0, RawValue := nestedValue }
      rfl rfl rfl (by decide) rfl (by decide) (by decide) rfl rfl).1 (by decide),
   (doInternal_nested_session_id (staticWorld (bodyResponse 200 plainBody)) {} none "GET"
      "http://localhost:17556/session" "" (getRequest "http://localhost:17556/session")
      (bodyResponse 200 plainBody) plainBody
      { RawSessionID := "", Status := 0, RawValue := "\"done\"" }
      rfl rfl rfl (by decide) rfl (by decide) (by decide) rfl rfl).2.1 (by decide)⟩

/-- C4 fails as stated: a value whose `status` member has the wrong type does
not parse as an envelope (unmarshalling it reports an error), yet the session
id stored before the error is returned instead of the empty outer id. -/
theorem doInternal_nested_session_id_despite_error :
    (unmarshalJsonResponse mistypedValue {}).2 = true ∧
    (decodeJsonResponse mistypedBody {}).1.RawSessionID = "" ∧
    (WebDriverCore.doInternal (staticWorld (bodyResponse 200 mistypedBody)) {} none "GET"
        "http://localhost:17556/session").1 =
      { sessionID := "xyz", data := mistypedValue, err := none } := by
  refine ⟨by decide, by decide, ?_⟩
  rw [doInternal_of_response (staticWorld (bodyResponse 200 mistypedBody)) {} none "GET"
      "http://localhost:17556/session" "" (getRequest "http://localhost:17556/session")
      (bodyResponse 200 mistypedBody) mistypedBody rfl rfl rfl (by decide) rfl]
  decide

/-- C5: a POST answered with status 302 or 303 and a usable `Location` returns
exactly what a GET of that location with nil params returns; after the POST
the only request issued is a GET of that location with an empty body, and
the body of the redirect response has no influence on the result. -/
theorem doInternal_follows_redirect (env : World) (w : WebDriverCore) (params : Option Any)
    (path body : String) (request : Request) (response : Response) (url : String)
    (hm : marshalParams params "POST" = .ok body)
    (hr : newRequest env "POST" path body = .ok request)
    (hd : env.Do request = .ok response)
    (hs : response.StatusCode = 302 ∨ response.StatusCode = 303)
    (hl : response.Location = .ok url) :
    (w.doInternal env params "POST" path).1 = (w.doInternal env none "GET" url).1 ∧
    (w.doInternal env params "POST" path).2 = request :: (w.doInternal env none "GET" url).2 ∧
    (∀ followUp ∈ (w.doInternal env none "GET" url).2,
      followUp.Method = "GET" ∧ followUp.URL = url ∧ followUp.Body = "") ∧
    (∀ otherBody : Except String String,
      w.doInternal (env.answering request (.ok { response with Body := otherBody }))
          params "POST" path =
        w.doInternal env params "POST" path) := by
  have hred : isRedirect response = true := by
    unfold isRedirect
    rcases hs with h | h <;> simp [h]
  have hpost := doInternal_of_redirect env w params path body request response url hm hr hd hred hl
  refine ⟨by rw [hpost], by rw [hpost], doInternal_get_requests env w url, ?_⟩
  intro otherBody
  have hmeth : request.Method = "POST" := newRequest_Method env "POST" path body request hr
  rw [hpost]
  rw [doInternal_of_redirect (env.answering request (.ok { response with Body := otherBody }))
      w params path body request { response with Body := otherBody } url hm hr
      (by simp [World.answering]) hred hl]
  rw [doInternal_get_congr (env.answering request (.ok { response with Body := otherBody }))
      env w none url rfl]
  intro r hrm
  have hne : r ≠ request := by
    intro heq
    rw [heq, hmeth] at hrm
    exact absurd hrm (by decide)
  simp [World.answering, Function.update, hne]

/-- C5 at the session-creation example: the POST of a new session is answered
with a 303 to the session's URL; the result is the one of the follow-up GET,
whose session id is `abc123` and not the one in the body of the redirect. -/
theorem doInternal_follows_redirect_witness :
    (WebDriverCore.doInternal redirectingWorld {} none "POST"
        "http://localhost:17556/session").1 =
      { sessionID := "abc123", data := "\x7b\"browserName\":\"edge\"\x7d", err := none } ∧
    (WebDriverCore.doInternal redirectingWorld {} none "POST"
        "http://localhost:17556/session").2 =
      [postRequest "http://localhost:17556/session" "\x7b\x7d",
       getRequest "http://localhost:17556/session/abc123"] := by
  have h := doInternal_follows_redirect redirectingWorld {} none
    "http://localhost:17556/session" "\x7b\x7d"
    (postRequest "http://localhost:17556/session" "\x7b\x7d")
    { StatusCode := 303,
      Location := .ok "http://localhost:17556/session/abc123",
      Body := .ok "\x7b\"sessionId\":\"from-redirect\",\"status\":0,\"value\":null\x7d" }
    "http://localhost:17556/session/abc123" rfl rfl rfl (by decide) rfl
  have hget := doInternal_of_response redirectingWorld {} none "GET"
    "http://localhost:17556/session/abc123" ""
    (getRequest "http://localhost:17556/session/abc123")
    (bodyResponse 200 sessionBody) sessionBody rfl rfl rfl (by decide) rfl
  rw [h.1, h.2.1, hget]
  exact ⟨by decide, rfl⟩

/-- C6: for a method other than exactly GET, POST or DELETE, `do` returns an
empty session id, no value and the error "invalid method: " followed by the
method, whatever the world, the params and the URL arguments are, and issues
no request; for the three valid methods `do` is `doInternal` on the built URL
and never returns that error. -/
theorem do_invalid_method (env : World) (w : WebDriverCore) (params : Option Any)
    (method urlFormat : String) (urlParams : List Any) :
    (method ≠ "GET" ∧ method ≠ "POST" ∧ method ≠ "DELETE" →
      w.«do» env params method urlFormat urlParams =
        ({ sessionID := "", data := "",
           err := some (GoError.new ("invalid method: " ++ method)) }, []) ∧
      ((w.«do» env params method urlFormat urlParams).1.err.map GoError.Error) =
        some ("invalid method: " ++ method)) ∧
    (method = "GET" ∨ method = "POST" ∨ method = "DELETE" →
      w.«do» env params method urlFormat urlParams =
        w.doInternal env params method (w.url ++ env.Sprintf urlFormat urlParams) ∧
      (w.«do» env params method urlFormat urlParams).1.err ≠
        some (GoError.new ("invalid method: " ++ method))) := by
  constructor
  · intro h
    unfold WebDriverCore.«do»
    simp only [if_pos h, Option.map_some', GoError.Error, and_self]
  · intro h
    have hneg : ¬ (method ≠ "GET" ∧ method ≠ "POST" ∧ method ≠ "DELETE") := by
      rintro ⟨h1, h2, h3⟩
      rcases h with h | h | h
      · exact h1 h
      · exact h2 h
      · exact h3 h
    have heq : w.«do» env params method urlFormat urlParams =
        w.doInternal env params method (w.url ++ env.Sprintf urlFormat urlParams) := by
      unfold WebDriverCore.«do»
      simp only [if_neg hneg]
    refine ⟨heq, ?_⟩
    rw [heq]
    intro herr
    have ht := doInternal_err_new env w params method _ _ herr
    rcases h with h | h | h <;> subst h <;> exact absurd ht (by decide)

/-- C6 at a lower-case method, at the empty method and at a valid one: the
first two are refused without a request, the GET is handed to the server. -/
theorem do_invalid_method_witness :
    WebDriverCore.«do» (staticWorld (bodyResponse 200 sessionBody)) {} none "get" "/status" [] =
      ({ sessionID := "", data := "", err := some (GoError.new "invalid method: get") }, []) ∧
    WebDriverCore.«do» (staticWorld (bodyResponse 200 sessionBody)) {} none "" "/status" [] =
      ({ sessionID := "", data := "", err := some (GoError.new "invalid method: ") }, []) ∧
    (WebDriverCore.«do» (staticWorld (bodyResponse 200 sessionBody)) {} none "GET" "/status"
        []).1.err ≠ some (GoError.new "invalid method: GET") :=
  ⟨((do_invalid_method (staticWorld (bodyResponse 200 sessionBody)) {} none "get" "/status"
      []).1 (by decide)).1,
   ((do_invalid_method (staticWorld (bodyResponse 200 sessionBody)) {} none "" "/status"
      []).1 (by decide)).1,
   ((do_invalid_method (staticWorld (bodyResponse 200 sessionBody)) {} none "GET" "/status"
      []).2 (by decide)).2⟩

/-! ## Driver lifecycle -/

/-- While a process handle is present, `Start` is refused and changes nothing. -/
theorem startDriver_of_cmd (name : String) (extraSwitches : List String) (os : StartEnv)
    (d : Driver) (h : d.cmd ≠ none) :
    startDriver name extraSwitches os d =
      (d, some (GoError.new (name ++ " start failed: " ++ (name ++ " already running")))) := by
  unfold startDriver
  simp only [if_pos h]

/-- Unless it stops at the check of the log path, `Start` leaves a process
handle behind. -/
theorem startDriver_cmd (name : String) (extraSwitches : List String) (os : StartEnv)
    (d : Driver) (h : ¬ (d.cmd = none ∧ d.LogPath ≠ "" ∧ os.OpenLogPath ≠ none)) :
    (startDriver name extraSwitches os d).1.cmd ≠ none := by
  by_cases hc : d.cmd ≠ none
  · rw [startDriver_of_cmd name extraSwitches os d hc]
    exact hc
  · have hcn : d.cmd = none := by simpa using hc
    obtain ⟨olp, so, se, cs, olf, pp⟩ := os
    have hlog : d.LogPath = "" ∨ olp = none := by
      by_cases hp : d.LogPath = ""
      · exact Or.inl hp
      · right
        by_contra ho
        exact h ⟨hcn, hp, ho⟩
    rcases hlog with hp | ho
    · cases so <;> cases se <;> cases cs <;> cases olf <;> cases pp <;>
        by_cases hf : d.LogFile = "" <;> simp [startDriver, hcn, hp, hf]
    · subst ho
      cases so <;> cases se <;> cases cs <;> cases olf <;> cases pp <;>
        by_cases hf : d.LogFile = "" <;> simp [startDriver, hcn, hf]

/-- A call of `Start` that returns nil did not stop at the check of the log
path. -/
theorem startDriver_ok (name : String) (extraSwitches : List String) (os : StartEnv)
    (d : Driver) (h : (startDriver name extraSwitches os d).2 = none) :
    ¬ (d.cmd = none ∧ d.LogPath ≠ "" ∧ os.OpenLogPath ≠ none) := by
  rintro ⟨hc, hp, ho⟩
  unfold startDriver at h
  obtain ⟨err, herr⟩ := Option.ne_none_iff_exists'.mp ho
  simp [hc, hp, herr] at h

/-- Without a process handle, `Stop` is refused and changes nothing. -/
theorem stopDriver_of_no_cmd (name : String) (signal : Option String) (d : Driver)
    (h : d.cmd = none) :
    stopDriver name signal d =
      .returns d (some (GoError.new ("stop failed: " ++ name ++ " not running"))) := by
  unfold stopDriver
  rw [h]

/-- C7, as the code has it: for each of the three driver types, when a first
`Start` did not stop at the check of the log path (in particular when it
returned nil), a second `Start` without `Stop` in between fails with the
"already running" error and leaves the driver unchanged; `Stop` on a driver
without process handle, such as a new one, fails with the "not running" error
and leaves the driver unchanged. -/
theorem start_twice_stop_unstarted (b : Browser) (os1 os2 : StartEnv)
    (signal : Option String) (d : Driver) :
    (¬ (d.cmd = none ∧ d.LogPath ≠ "" ∧ os1.OpenLogPath ≠ none) →
      b.Start os2 (b.Start os1 d).1 = ((b.Start os1 d).1, some b.alreadyRunning)) ∧
    ((b.Start os1 d).2 = none →
      b.Start os2 (b.Start os1 d).1 = ((b.Start os1 d).1, some b.alreadyRunning)) ∧
    (d.cmd = none → b.Stop signal d = .returns d (some b.notRunning)) ∧
    (∀ path : String, b.Stop signal (b.New path) = .returns (b.New path) (some b.notRunning)) := by
  have key : ∀ (name : String) (sw : List String),
      ¬ (d.cmd = none ∧ d.LogPath ≠ "" ∧ os1.OpenLogPath ≠ none) →
      startDriver name sw os2 (startDriver name sw os1 d).1 =
        ((startDriver name sw os1 d).1,
          some (GoError.new (name ++ " start failed: " ++ (name ++ " already running")))) :=
    fun name sw h => startDriver_of_cmd name sw os2 _ (startDriver_cmd name sw os1 d h)
  refine ⟨?_, ?_, ?_, ?_⟩
  · intro h
    cases b
    · exact key "Edgedriver" ["--jwp=true"] h
    · exact key "IE11driver" [] h
    · exact key "Safaridriver" [] h
  · intro h
    cases b
    · exact key "Edgedriver" ["--jwp=true"] (startDriver_ok _ _ _ _ h)
    · exact key "IE11driver" [] (startDriver_ok _ _ _ _ h)
    · exact key "Safaridriver" [] (startDriver_ok _ _ _ _ h)
  · intro h
    cases b
    · exact stopDriver_of_no_cmd "Edgedriver" signal d h
    · exact stopDriver_of_no_cmd "IE11driver" signal d h
    · exact stopDriver_of_no_cmd "Safaridriver" signal d h
  · intro path
    cases b
    · exact stopDriver_of_no_cmd "Edgedriver" signal (NewEdgeDriver path) rfl
    · exact stopDriver_of_no_cmd "IE11driver" signal (NewIE11Driver path) rfl
    · exact stopDriver_of_no_cmd "Safaridriver" signal (NewSafariDriver path) rfl

/-- C7 on an Edge driver whose log path can be opened at the first `Start`,
and on a new Safari driver: the first `Start` succeeds, the second is refused
as "already running" and leaves the running driver as it is; `Stop` on the new
driver is refused as "not running". -/
theorem start_twice_stop_unstarted_witness :
    EdgeDriver.Start readOnlyOS (EdgeDriver.Start healthyOS loggingEdgeDriver).1 =
      ((EdgeDriver.Start healthyOS loggingEdgeDriver).1,
        some (GoError.new "Edgedriver start failed: Edgedriver already running")) ∧
    (SafariDriver.Start healthyOS (NewSafariDriver "/usr/bin/safaridriver")).2 = none ∧
    SafariDriver.Start healthyOS
        (SafariDriver.Start healthyOS (NewSafariDriver "/usr/bin/safaridriver")).1 =
      ((SafariDriver.Start healthyOS (NewSafariDriver "/usr/bin/safaridriver")).1,
        some (GoError.new "Safaridriver start failed: Safaridriver already running")) ∧
    SafariDriver.Stop none (NewSafariDriver "/usr/bin/safaridriver") =
      .returns (NewSafariDriver "/usr/bin/safaridriver")
        (some (GoError.new "stop failed: Safaridriver not running")) :=
  ⟨(start_twice_stop_unstarted .Edge healthyOS readOnlyOS none loggingEdgeDriver).1 (by decide),
   by decide,
   (start_twice_stop_unstarted .Safari healthyOS healthyOS none
      (NewSafariDriver "/usr/bin/safaridriver")).2.1 (by decide),
   (start_twice_stop_unstarted .Safari healthyOS healthyOS none
      (NewSafariDriver "/usr/bin/safaridriver")).2.2.1 (by decide)⟩

/-- C7 fails as stated: when the log path cannot be opened, the first `Start`
returns before it creates the process handle, so the second `Start` is not
refused as "already running": it fails on the log path again, and succeeds
once the path can be opened. -/
theorem start_twice_log_path_failure :
    (EdgeDriver.Start readOnlyOS (EdgeDriver.Start readOnlyOS loggingEdgeDriver).1).2 =
      some (GoError.new ("Edgedriver start failed: unable to write in log path: " ++
        "open /var/log/driver.log: permission denied")) ∧
    (EdgeDriver.Start readOnlyOS (EdgeDriver.Start readOnlyOS loggingEdgeDriver).1).2 ≠
      some Browser.Edge.alreadyRunning ∧
    (EdgeDriver.Start healthyOS (EdgeDriver.Start readOnlyOS loggingEdgeDriver).1).2 = none := by
  decide

/-- A call of `Stop` that finds a process handle leaves the driver without
one, whatever the outcome of the signal and however the call ends. -/
theorem stopDriver_clears_cmd (name : String) (signal : Option String) (d : Driver)
    (cmd : Cmd) (h : d.cmd = some cmd) : (stopDriver name signal d).driver.cmd = none := by
  unfold stopDriver
  rw [h]
  rcases cmd with ⟨p, a, _ | pid⟩ <;> rfl

/-- A driver without process handle is started on an operating system where
every step succeeds: `Start` is not refused and returns nil. -/
theorem startDriver_healthy (name : String) (extraSwitches : List String) (d : Driver)
    (h : d.cmd = none) : (startDriver name extraSwitches healthyOS d).2 = none := by
  by_cases hp : d.LogPath = "" <;> by_cases hf : d.LogFile = "" <;>
    simp [startDriver, healthyOS, h, hp, hf]

/-- What the code does where C11 fails: when the subprocess cannot be spawned,
`Start` returns the spawn error and leaves the process handle it had already
stored in place, a handle without process; the next `Start` is then refused as
"already running" although nothing runs. -/
theorem start_spawn_failure_keeps_cmd (b : Browser) (os os2 : StartEnv) (d : Driver)
    (err : String)
    (hc : d.cmd = none)
    (hlog : d.LogPath = "" ∨ os.OpenLogPath = none)
    (hout : os.StdoutPipe = none) (herr : os.StderrPipe = none)
    (hstart : os.CmdStart = .error err) :
    (b.Start os d).2 = some (GoError.new (b.startFailed ++ err)) ∧
    (b.Start os d).1.cmd ≠ none ∧
    (b.Start os d).1.handleSpawned = false ∧
    b.Start os2 (b.Start os d).1 = ((b.Start os d).1, some b.alreadyRunning) := by
  obtain ⟨olp, so, se, cs, olf, pp⟩ := os
  simp only at hlog hout herr hstart
  subst hout herr hstart
  have key : ∀ (name : String) (sw : List String),
      (startDriver name sw ⟨olp, none, none, .error err, olf, pp⟩ d).2 =
        some (GoError.new (name ++ " start failed: " ++ err)) ∧
      (startDriver name sw ⟨olp, none, none, .error err, olf, pp⟩ d).1.cmd ≠ none ∧
      (startDriver name sw ⟨olp, none, none, .error err, olf, pp⟩ d).1.handleSpawned = false := by
    intro name sw
    rcases hlog with hp | ho
    · simp [startDriver, hc, hp, Driver.handleSpawned]
    · subst ho
      by_cases hp : d.LogPath = "" <;> simp [startDriver, hc, hp, Driver.handleSpawned]
  cases b
  · exact ⟨(key _ _).1, (key _ _).2.1, (key _ _).2.2,
      startDriver_of_cmd "Edgedriver" _ os2 _ (key "Edgedriver" ["--jwp=true"]).2.1⟩
  · exact ⟨(key _ _).1, (key _ _).2.1, (key _ _).2.2,
      startDriver_of_cmd "IE11driver" _ os2 _ (key "IE11driver" []).2.1⟩
  · exact ⟨(key _ _).1, (key _ _).2.1, (key _ _).2.2,
      startDriver_of_cmd "Safaridriver" _ os2 _ (key "Safaridriver" []).2.1⟩

/-- C11 fails on the code at a new Edge driver whose binary cannot be
executed: `Start` returns the spawn error, the driver keeps a process handle
without process, and a second `Start`, on an operating system where every step
would succeed, is refused as "already running". -/
theorem start_spawn_failure_keeps_cmd_witness :
    (EdgeDriver.Start noBinaryOS (NewEdgeDriver "/no/such/msedgedriver")).2 =
      some (GoError.new ("Edgedriver start failed: " ++
        "fork/exec /no/such/msedgedriver: no such file or directory")) ∧
    (EdgeDriver.Start noBinaryOS (NewEdgeDriver "/no/such/msedgedriver")).1.cmd ≠ none ∧
    (EdgeDriver.Start noBinaryOS (NewEdgeDriver "/no/such/msedgedriver")).1.handleSpawned =
      false ∧
    EdgeDriver.Start healthyOS
        (EdgeDriver.Start noBinaryOS (NewEdgeDriver "/no/such/msedgedriver")).1 =
      ((EdgeDriver.Start noBinaryOS (NewEdgeDriver "/no/such/msedgedriver")).1,
        some (GoError.new "Edgedriver start failed: Edgedriver already running")) :=
  start_spawn_failure_keeps_cmd .Edge noBinaryOS healthyOS (NewEdgeDriver "/no/such/msedgedriver")
    "fork/exec /no/such/msedgedriver: no such file or directory"
    rfl (Or.inl rfl) rfl rfl rfl

/-- After the failed spawn the handle has no process, so `Stop` runs into the
nil `d.cmd.Process`: it panics, and its deferred function clears the handle. -/
theorem stop_after_spawn_failure_panics :
    EdgeDriver.Stop none
        (EdgeDriver.Start noBinaryOS (NewEdgeDriver "/no/such/msedgedriver")).1 =
      .panics { (EdgeDriver.Start noBinaryOS (NewEdgeDriver "/no/such/msedgedriver")).1 with
                cmd := none } := by
  decide

/-! ## Requests issued by one call -/

/-- A call that does not POST issues at most one request. -/
theorem doInternal_requests_of_ne_post (env : World) (w : WebDriverCore) (params : Option Any)
    (method path : String) (h : method ≠ "POST") :
    (w.doInternal env params method path).2.length ≤ 1 := by
  rw [doInternal_of_ne_post env w params method path h]
  cases newRequest env method path "" with
  | error err => simp
  | ok request =>
    simp only []
    cases env.Do request with
    | error err => simp
    | ok response =>
      simp only []
      cases response.Body with
      | error err => simp
      | ok buf => simp

/-- Whatever `client.Do` answers, one call of `doInternal` calls it at most
twice, and at most once when it does not POST; every call after the first is a
GET, so the follow-up of a redirect is not followed again by `doInternal`. -/
theorem doInternal_calls_client_at_most_twice (env : World) (w : WebDriverCore)
    (params : Option Any) (method path : String) :
    (w.doInternal env params method path).2.length ≤ 2 ∧
    (method ≠ "POST" → (w.doInternal env params method path).2.length ≤ 1) ∧
    (∀ followUp ∈ (w.doInternal env params method path).2.tail, followUp.Method = "GET") := by
  by_cases hp : method = "POST"
  · subst hp
    have hget : ∀ url, (w.doInternal env none "GET" url).2.length ≤ 1 :=
      fun url => doInternal_requests_of_ne_post env w none "GET" url (by decide)
    have hall : ∀ url, ∀ r ∈ (w.doInternal env none "GET" url).2, r.Method = "GET" :=
      fun url r hr => (doInternal_get_requests env w url r hr).1
    refine ⟨?_, fun h => absurd rfl h, ?_⟩
    · rw [WebDriverCore.doInternal.eq_def]
      split
      · simp
      · split
        · simp
        · split
          · simp
          · split
            · split
              · simp
              · rename_i url _
                have := hget url
                simp only [List.length_cons]
                omega
            · split
              · simp
              · simp
    · rw [WebDriverCore.doInternal.eq_def]
      split
      · simp
      · split
        · simp
        · split
          · simp
          · split
            · split
              · simp
              · rename_i url _
                simpa using hall url
            · split
              · simp
              · simp
  · have h1 := doInternal_requests_of_ne_post env w params method path hp
    refine ⟨by omega, fun _ => h1, ?_⟩
    intro r hr
    have htail : (w.doInternal env params method path).2.tail = [] := by
      cases hl : (w.doInternal env params method path).2 with
      | nil => rfl
      | cons a t =>
        rw [hl] at h1
        simp only [List.length_cons] at h1
        have : t = [] := List.length_eq_zero.mp (by omega)
        simp [this]
    rw [htail] at hr
    simp at hr

/-- One call of the client sends no more requests than the default
`CheckRedirect` allows. -/
theorem Client.hops_length (net : Network) (ireq : Request) (allowed : Nat) :
    ∀ (loc : String) (req : Request) (reqs : List Request),
      (Client.hops net ireq allowed loc req reqs).2.length ≤ reqs.length + allowed := by
  induction allowed with
  | zero => intro loc req reqs; simp [Client.hops]
  | succ allowed ih =>
    intro loc req reqs
    unfold Client.hops
    dsimp only
    split
    · simp
    · split
      · simp
      · split
        · simp
        · split
          · simp
          · refine le_trans (ih _ _ _) ?_
            simp only [List.length_append, List.length_cons, List.length_nil]
            omega

/-- One call of `client.Do` sends at most ten requests. -/
theorem Client.Do_length (net : Network) (request : Request) :
    (Client.Do net request).2.length ≤ 10 := by
  have := Client.hops_length net request 10 "" request []
  simpa [Client.Do] using this

/-- A 302 or 303 the client returns has no `Location` header: with one, the
client would have followed it. -/
theorem Client.hops_redirect (net : Network) (ireq : Request) (allowed : Nat) :
    ∀ (loc : String) (req : Request) (reqs : List Request) (answer : WireResponse × Request),
      (Client.hops net ireq allowed loc req reqs).1 = .ok answer →
      (answer.1.StatusCode = 302 ∨ answer.1.StatusCode = 303) → answer.1.Location = "" := by
  induction allowed with
  | zero => intro loc req reqs answer h; simp [Client.hops] at h
  | succ allowed ih =>
    intro loc req reqs answer h hs
    unfold Client.hops at h
    dsimp only at h
    split at h
    · simp at h
    · rename_i resp _
      split at h
      · rename_i hb
        simp only [Except.ok.injEq] at h
        subst h
        simp only at hs
        unfold redirectBehavior at hb
        rcases hs with hs | hs <;> simp [hs] at hb
      · split at h
        · rename_i hl
          simp only [Except.ok.injEq] at h
          subst h
          exact hl
        · split at h
          · simp at h
          · exact ih _ _ _ answer h hs

/-- For a redirect that `client.Do` returns, `Location()` fails. -/
theorem Client.Do_redirect (net : Network) (request : Request) (response : Response)
    (h : (Client.Do net request).1 = .ok response) (hs : isRedirect response = true) :
    response.Location = .error "http: no Location header in response" := by
  unfold Client.Do at h
  dsimp only at h
  cases hh : (Client.hops net request 10 "" request []).1 with
  | error err => rw [hh] at h; simp [Except.map] at h
  | ok answer =>
    rw [hh] at h
    simp only [Except.map, Except.ok.injEq] at h
    subst h
    have hcode : answer.1.StatusCode = 302 ∨ answer.1.StatusCode = 303 := by
      simpa [isRedirect, Client.response] using hs
    have := Client.hops_redirect net request 10 "" request [] answer hh hcode
    simp [Client.response, this]

/-- With the client of `doInternal`, the redirect branch never reaches its
recursive call: one call of `doInternal` calls `client.Do` at most once. -/
theorem doInternal_withClient_calls (env : World) (net : Network) (w : WebDriverCore)
    (params : Option Any) (method path : String) :
    (w.doInternal (env.withClient net) params method path).2.length ≤ 1 := by
  by_cases hp : method = "POST"
  · subst hp
    rw [WebDriverCore.doInternal.eq_def]
    split
    · simp
    · split
      · simp
      · rename_i request _
        split
        · simp
        · rename_i response hd
          split
          · rename_i hred
            have hloc := Client.Do_redirect net request response hd hred.2
            split
            · simp
            · rename_i url hl
              rw [hloc] at hl
              cases hl
          · split
            · simp
            · simp
  · exact doInternal_requests_of_ne_post (env.withClient net) w params method path hp

/-- A sequence of calls of `client.Do` sends at most ten requests for each
call. -/
theorem wireRequests_length (net : Network) (calls : List Request) :
    (wireRequests net calls).length ≤ 10 * calls.length := by
  induction calls with
  | nil => simp [wireRequests]
  | cons call calls ih =>
    have := Client.Do_length net call
    simp only [wireRequests, List.length_append, List.length_cons]
    omega

/-- A call that ends with an error of `client.Do` returns that error after the
one request. -/
theorem doInternal_of_do_error (env : World) (w : WebDriverCore) (params : Option Any)
    (method path body : String) (request : Request) (err : String)
    (hm : marshalParams params method = .ok body)
    (hr : newRequest env method path body = .ok request)
    (hd : env.Do request = .error err) :
    w.doInternal env params method path =
      ({ sessionID := "", data := "", err := some (GoError.ext err) }, [request]) := by
  rw [WebDriverCore.doInternal.eq_def]
  simp only [hm, hr, hd]

/-- C12, as the code has it: whatever the server answers, one call of
`doInternal` calls `client.Do` at most twice, at most once when it does not
POST, and every call after the first is a GET, so the recursion is at most one
deep. The HTTP requests are bounded by the client, which follows redirects by
itself: one call of `client.Do` sends at most ten, and with this client
`doInternal` calls it once, so one call of `doInternal` sends at most ten
requests. -/
theorem doInternal_requests_bounded (env : World) (net : Network) (w : WebDriverCore)
    (params : Option Any) (method path : String) :
    (w.doInternal env params method path).2.length ≤ 2 ∧
    (method ≠ "POST" → (w.doInternal env params method path).2.length ≤ 1) ∧
    (∀ followUp ∈ (w.doInternal env params method path).2.tail, followUp.Method = "GET") ∧
    (∀ request : Request, (Client.Do net request).2.length ≤ 10) ∧
    (w.doInternal (env.withClient net) params method path).2.length ≤ 1 ∧
    (wireRequests net (w.doInternal (env.withClient net) params method path).2).length ≤ 10 := by
  have hcalls := doInternal_withClient_calls env net w params method path
  have hwire := wireRequests_length net (w.doInternal (env.withClient net) params method path).2
  exact ⟨(doInternal_calls_client_at_most_twice env w params method path).1,
    (doInternal_calls_client_at_most_twice env w params method path).2.1,
    (doInternal_calls_client_at_most_twice env w params method path).2.2,
    Client.Do_length net, hcalls, by omega⟩

/-- C12 at the creation of a session: the server redirects the POST to the
session's URL, the client follows with a GET inside the one call of
`client.Do`, and `doInternal` returns the session served there after two
requests on the network. -/
theorem doInternal_requests_bounded_witness :
    (WebDriverCore.doInternal (plainWorld.withClient sessionNetwork) {} none "POST"
        "http://localhost:17556/session").1 =
      { sessionID := "abc123", data := "\x7b\"browserName\":\"edge\"\x7d", err := none } ∧
    (WebDriverCore.doInternal (plainWorld.withClient sessionNetwork) {} none "POST"
        "http://localhost:17556/session").2 =
      [postRequest "http://localhost:17556/session" "\x7b\x7d"] ∧
    (wireRequests sessionNetwork
      (WebDriverCore.doInternal (plainWorld.withClient sessionNetwork) {} none "POST"
        "http://localhost:17556/session").2).map (fun request => (request.Method, request.URL)) =
      [("POST", "http://localhost:17556/session"),
       ("GET", "http://localhost:17556/session/abc123")] ∧
    (wireRequests sessionNetwork
      (WebDriverCore.doInternal (plainWorld.withClient sessionNetwork) {} none "POST"
        "http://localhost:17556/session").2).length ≤ 10 ∧
    (WebDriverCore.doInternal (plainWorld.withClient sessionNetwork) {} none "GET"
        "http://localhost:17556/session/abc123").2.length ≤ 1 := by
  have h := doInternal_of_response (plainWorld.withClient sessionNetwork) {} none "POST"
    "http://localhost:17556/session" "\x7b\x7d"
    (postRequest "http://localhost:17556/session" "\x7b\x7d")
    { StatusCode := 200, Location := .error "http: no Location header in response",
      Body := .ok sessionBody }
    sessionBody rfl rfl rfl (by decide) rfl
  refine ⟨?_, ?_, ?_,
    (doInternal_requests_bounded plainWorld sessionNetwork {} none "POST"
      "http://localhost:17556/session").2.2.2.2.2,
    (doInternal_requests_bounded (plainWorld.withClient sessionNetwork) sessionNetwork {} none
      "GET" "http://localhost:17556/session/abc123").2.1 (by decide)⟩
  · rw [h]; decide
  · rw [h]
  · rw [h]; decide

/-- C12 fails as stated: against a server that answers every request with a
302, the one call of `doInternal` sends ten HTTP requests, the POST and nine
GETs of the client's own redirect following, and returns the client's error
for the redirect limit. -/
theorem doInternal_redirect_loop_sends_ten :
    (wireRequests loopNetwork
      (WebDriverCore.doInternal (plainWorld.withClient loopNetwork) {} none "POST"
        "http://localhost:17556/session").2).length = 10 ∧
    ¬ ((wireRequests loopNetwork
      (WebDriverCore.doInternal (plainWorld.withClient loopNetwork) {} none "POST"
        "http://localhost:17556/session").2).length ≤ 2) ∧
    (wireRequests loopNetwork
      (WebDriverCore.doInternal (plainWorld.withClient loopNetwork) {} none "POST"
        "http://localhost:17556/session").2).map (fun request => request.Method) =
      ["POST", "GET", "GET", "GET", "GET", "GET", "GET", "GET", "GET", "GET"] ∧
    (WebDriverCore.doInternal (plainWorld.withClient loopNetwork) {} none "POST"
        "http://localhost:17556/session").1.err =
      some (GoError.ext "Post \"/loop\": stopped after 10 redirects") := by
  have h := doInternal_of_do_error (plainWorld.withClient loopNetwork) {} none "POST"
    "http://localhost:17556/session" "\x7b\x7d"
    (postRequest "http://localhost:17556/session" "\x7b\x7d")
    "Post \"/loop\": stopped after 10 redirects" rfl rfl rfl
  rw [h]
  decide

end Webdriver
